import Mathlib

/-!
# GBA framework: register-level model

A shallow embedding of the hardware-abstraction layer of the repository
(`framework/include/gba_framework.hpp`, `framework/src/*.cpp`, `src/main.cpp`).

* The memory-mapped registers are a register file: a map from the address of a
  register to the value it holds. A 16-bit register is written through `write16`
  and read through `read16`, a 32-bit one through `write32` / `read32`; both
  directions truncate to the width of the `volatile u16` / `volatile u32` lvalue.
* The function-local `static u16 prevKeys` of `Input::GetKeysPressed` is the
  field `prevKeys` of the state.
* A function whose claims depend on how a store acts on the register, or on the
  order of its stores, has its body written once over the store operations it is
  given (`WaitForVBlankWith`, `PlaySoundOn`, `PlayMusicOn`); the function on the
  register file is that body with `write16` / `write32`.
* C arithmetic on `u16` operands is done after promotion to the 32-bit `int`;
  `bitNot` is `~` on the 32-bit pattern, and `toU16` / `toU32` are the conversions
  made by an assignment to a `u16` / `u32`.
-/

namespace GBA

/-! ## Register map (gba_framework.hpp, lines 12-31) -/

def REG_DISPCNT : Nat := 0x4000000
def REG_IME : Nat := 0x4000208
def REG_IE : Nat := 0x4000200
def REG_IF : Nat := 0x4000202
def REG_KEYINPUT : Nat := 0x4000130
def REG_SOUNDCNT_X : Nat := 0x4000084
def REG_SOUNDCNT_L : Nat := 0x4000080
def REG_SOUNDCNT_H : Nat := 0x4000082
def REG_DMA1SAD : Nat := 0x40000BC
def REG_DMA1DAD : Nat := 0x40000C0
def REG_DMA1CNT : Nat := 0x40000C4
def REG_DMA2SAD : Nat := 0x40000C8
def REG_DMA2DAD : Nat := 0x40000CC
def REG_DMA2CNT : Nat := 0x40000D0
def REG_FIFO_A : Nat := 0x40000A0
def REG_FIFO_B : Nat := 0x40000A4
def REG_TM0CNT_L : Nat := 0x4000100
def REG_TM0CNT_H : Nat := 0x4000102
def REG_TM1CNT_L : Nat := 0x4000104
def REG_TM1CNT_H : Nat := 0x4000106

/-! ## Flag constants (gba_framework.hpp, lines 33-70) -/

def MODE_0 : Nat := 0x0000
def MODE_1 : Nat := 0x0001
def MODE_2 : Nat := 0x0002
def BG0_ENABLE : Nat := 0x0100
def BG1_ENABLE : Nat := 0x0200

def KEY_A : Nat := 0x0001
def KEY_B : Nat := 0x0002
def KEY_SELECT : Nat := 0x0004
def KEY_START : Nat := 0x0008
def KEY_RIGHT : Nat := 0x0010
def KEY_LEFT : Nat := 0x0020
def KEY_UP : Nat := 0x0040
def KEY_DOWN : Nat := 0x0080
def KEY_R : Nat := 0x0100
def KEY_L : Nat := 0x0200
def KEY_MASK : Nat := 0x03FF

def RESET_ALL : Nat := 0xFF
def RESET_IWRAM : Nat := 0x01

def IRQ_VBLANK : Nat := 0x0001

def SND_ENABLED : Nat := 0x0080

def DMA_ENABLE : Nat := 0x80000000
def DMA_TIMING_FIFO : Nat := 0x00000040
def DMA_32 : Nat := 0x04000000

def TIMER_START : Nat := 0x0080
def TIMER_FREQ_1024 : Nat := 0x0003

/-! ## Machine integers -/

/-- Conversion to `u16` (assignment to a 16-bit object). -/
def toU16 (x : Nat) : Nat := x % 2 ^ 16

/-- Conversion to `u32` (assignment to a 32-bit object, pointer cast `(u32)p`). -/
def toU32 (x : Nat) : Nat := x % 2 ^ 32

/-- C `~x` on an operand promoted to the 32-bit `int`, as its bit pattern. -/
def bitNot (x : Nat) : Nat := 2 ^ 32 - 1 - x

/-! ## Program state -/

/-- The register file together with the one static variable of the program. -/
structure State where
  /-- Register file: address of a register to the value it holds. -/
  regs : Nat → Nat
  /-- The `static u16 prevKeys` of `Input::GetKeysPressed`. -/
  prevKeys : Nat

/-- Read of a `volatile u16` register. -/
def read16 (s : State) (addr : Nat) : Nat := toU16 (s.regs addr)

/-- Read of a `volatile u32` register. -/
def read32 (s : State) (addr : Nat) : Nat := toU32 (s.regs addr)

/-- Write to a `volatile u16` register: the register then holds the value written. -/
def write16 (s : State) (addr v : Nat) : State :=
  { s with regs := fun a => if a = addr then toU16 v else s.regs a }

/-- Write to a `volatile u32` register. -/
def write32 (s : State) (addr v : Nat) : State :=
  { s with regs := fun a => if a = addr then toU32 v else s.regs a }

/-- Modelled from the spec: the write hook of the interrupt-flag register on the
hardware the code targets, which is not part of the repository. The specification
has the register file carry "read/write side-effect hooks" and has the store of
`IRQ_VBLANK` to IF clear that bit, as the comment of system.cpp:20 says. A store to
such a write-1-to-acknowledge register clears the bits that are 1 in the value
stored and leaves the other bits as they were. -/
def writeAck16 (s : State) (addr v : Nat) : State :=
  { s with regs := fun a =>
      if a = addr then toU16 (read16 s addr &&& bitNot (toU16 v)) else s.regs a }

/-- The state a program starts in: `prevKeys` is zero-initialised. -/
def State.boot (regs : Nat → Nat) : State := { regs := regs, prevKeys := 0 }

/-! ## System (system.cpp) -/

namespace System

/-- `System::RegisterRamReset(u16 flags)`: `(void)flags;`. -/
def RegisterRamReset (_flags : Nat) (s : State) : State := s

/-- `System::irqInit()`: `REG_IME = 0; REG_IE = 0; REG_IF = 0; REG_IME = 1;`. -/
def irqInit (s : State) : State :=
  let s1 := write16 s REG_IME 0
  let s2 := write16 s1 REG_IE 0
  let s3 := write16 s2 REG_IF 0
  write16 s3 REG_IME 1

/-- `System::irqEnable(u16 flags)`: `REG_IE |= flags;`. -/
def irqEnable (flags : Nat) (s : State) : State :=
  write16 s REG_IE (read16 s REG_IE ||| flags)

/-- `System::Initialize()`. -/
def Initialize (s : State) : State :=
  let s1 := RegisterRamReset (toU16 (RESET_ALL &&& bitNot RESET_IWRAM)) s
  let s2 := irqInit s1
  let s3 := irqEnable IRQ_VBLANK s2
  write16 s3 REG_DISPCNT 0

/-- The body of `System::WaitForVBlank()`, `while (!(REG_IF & IRQ_VBLANK)) {}`
then `REG_IF = IRQ_VBLANK;`, over the store operation `store` of the register
file. A read of `REG_IF` yields the value the register holds. Each unit of fuel
pays for one evaluation of the loop condition; `none` is the loop still spinning
when the fuel is gone. -/
def WaitForVBlankWith (store : State → Nat → Nat → State) : Nat → State → Option State
  | 0, _ => none
  | fuel + 1, s =>
    if read16 s REG_IF &&& IRQ_VBLANK = 0 then WaitForVBlankWith store fuel s
    else some (store s REG_IF IRQ_VBLANK)

/-- `System::WaitForVBlank()` on the register file in which every register, IF
too, holds the value last written. -/
def WaitForVBlank (fuel : Nat) (s : State) : Option State :=
  WaitForVBlankWith write16 fuel s

/-- The spin loop of `System::WaitForVBlank()` against successive readings of the
volatile `REG_IF`: `reads i` is what the `i`-th evaluation of the loop condition
reads (counted from 0). The result is the index of the reading at which the loop
is left; `none` is the loop still spinning when the fuel is gone. -/
def spinVBlank (reads : Nat → Nat) : Nat → Nat → Option Nat
  | 0, _ => none
  | fuel + 1, i =>
    if toU16 (reads i) &&& IRQ_VBLANK = 0 then spinVBlank reads fuel (i + 1)
    else some i

/-- `System::WaitForVBlank()` against successive readings of `REG_IF`: the spin
loop, then `REG_IF = IRQ_VBLANK;`. The result is the index of the reading the
loop was left at, with the state after the final write. -/
def WaitForVBlankOn (reads : Nat → Nat) (fuel : Nat) (s : State) : Option (Nat × State) :=
  match spinVBlank reads fuel 0 with
  | none => none
  | some i => some (i, write16 s REG_IF IRQ_VBLANK)

end System

/-! ## Display (graphics/display.cpp) -/

namespace Graphics.Display

/-- `Graphics::Display::SetMode(u16 mode)`: `REG_DISPCNT = mode;`. -/
def SetMode (mode : Nat) (s : State) : State :=
  write16 s REG_DISPCNT mode

/-- `Graphics::Display::EnableBackground(u16 bgFlags)`: `REG_DISPCNT |= bgFlags;`. -/
def EnableBackground (bgFlags : Nat) (s : State) : State :=
  write16 s REG_DISPCNT (read16 s REG_DISPCNT ||| bgFlags)

end Graphics.Display

/-! ## Input (input.cpp) -/

namespace Input

/-- `Input::GetKeysPressed()`: the value returned and the state left. -/
def GetKeysPressed (s : State) : Nat × State :=
  let currentKeys := toU16 (bitNot (read16 s REG_KEYINPUT) &&& KEY_MASK)
  let pressedKeys := toU16 (currentKeys &&& bitNot s.prevKeys)
  (pressedKeys, { s with prevKeys := currentKeys })

/-- `Input::GetKeysHeld()`: the value returned and the state left. -/
def GetKeysHeld (s : State) : Nat × State :=
  (toU16 (bitNot (read16 s REG_KEYINPUT) &&& KEY_MASK), s)

end Input

/-! ## Audio (audio.cpp) -/

namespace Audio

/-- `Audio::Initialize()`. -/
def Initialize (s : State) : State :=
  let s1 := write16 s REG_SOUNDCNT_X SND_ENABLED
  let s2 := write16 s1 REG_SOUNDCNT_L 0x77
  write16 s2 REG_SOUNDCNT_H 0xB0F

/-- The body of `Audio::PlaySound(const void* soundData, u32 length)` (audio.cpp,
lines 14-21) over the store operations `store16` and `store32` of a machine `M`:
each statement of the function is one store, in program order. -/
def PlaySoundOn {M : Type} (store16 store32 : M → Nat → Nat → M)
    (soundData _length : Nat) (m : M) : M :=
  let m1 := store32 m REG_DMA1CNT 0
  let m2 := store32 m1 REG_DMA1SAD (toU32 soundData)
  let m3 := store32 m2 REG_DMA1DAD (toU32 REG_FIFO_A)
  let m4 := store32 m3 REG_DMA1CNT (DMA_ENABLE ||| DMA_TIMING_FIFO ||| DMA_32)
  let m5 := store16 m4 REG_TM0CNT_L 0
  store16 m5 REG_TM0CNT_H (TIMER_START ||| TIMER_FREQ_1024)

/-- The body of `Audio::PlayMusic(const void* musicData, u32 length)` (audio.cpp,
lines 26-33) over the store operations of a machine `M`. -/
def PlayMusicOn {M : Type} (store16 store32 : M → Nat → Nat → M)
    (musicData _length : Nat) (m : M) : M :=
  let m1 := store32 m REG_DMA2CNT 0
  let m2 := store32 m1 REG_DMA2SAD (toU32 musicData)
  let m3 := store32 m2 REG_DMA2DAD (toU32 REG_FIFO_B)
  let m4 := store32 m3 REG_DMA2CNT (DMA_ENABLE ||| DMA_TIMING_FIFO ||| DMA_32)
  let m5 := store16 m4 REG_TM1CNT_L 0
  store16 m5 REG_TM1CNT_H (TIMER_START ||| TIMER_FREQ_1024)

/-- `Audio::PlaySound(const void* soundData, u32 length)` on the register file. -/
def PlaySound (soundData length : Nat) (s : State) : State :=
  PlaySoundOn write16 write32 soundData length s

/-- `Audio::PlayMusic(const void* musicData, u32 length)` on the register file. -/
def PlayMusic (musicData length : Nat) (s : State) : State :=
  PlayMusicOn write16 write32 musicData length s

end Audio

/-! ## Key sets and polling sequences (vocabulary of the properties) -/

/-- The ten keys of the key matrix. -/
inductive Key where
  | A | B | SELECT | START | RIGHT | LEFT | UP | DOWN | R | L
  deriving DecidableEq, Repr, Fintype

/-- The key constant of a key. -/
def Key.bit : Key → Nat
  | .A => KEY_A
  | .B => KEY_B
  | .SELECT => KEY_SELECT
  | .START => KEY_START
  | .RIGHT => KEY_RIGHT
  | .LEFT => KEY_LEFT
  | .UP => KEY_UP
  | .DOWN => KEY_DOWN
  | .R => KEY_R
  | .L => KEY_L

/-- The position of the bit of a key in the key-input register. -/
def Key.idx : Key → Nat
  | .A => 0
  | .B => 1
  | .SELECT => 2
  | .START => 3
  | .RIGHT => 4
  | .LEFT => 5
  | .UP => 6
  | .DOWN => 7
  | .R => 8
  | .L => 9

/-- The bits of a set of keys, the OR of their key constants. -/
def keyBits : List Key → Nat
  | [] => 0
  | k :: ks => k.bit ||| keyBits ks

/-- The key-input register reports a held key by a 0 bit: it shows exactly the
keys of `K` held when, among the ten key bits, exactly those of `K` are 0. -/
def showsHeld (r : Nat) (K : List Key) : Prop :=
  ∀ k : Key, r.testBit k.idx = false ↔ k ∈ K

instance (r : Nat) (K : List Key) : Decidable (showsHeld r K) := by
  unfold showsHeld
  infer_instance

/-- Bitwise NOT of a 16-bit value, the NOT of the specification. -/
def not16 (x : Nat) : Nat := 2 ^ 16 - 1 - x

/-- A register file holding `v` at `addr` and zero elsewhere. -/
def regsWith (addr v : Nat) : Nat → Nat :=
  fun a => if a = addr then v else 0

/-- The hardware latches a new value into the key-input register. -/
def setKeyInput (r : Nat) (s : State) : State :=
  { s with regs := fun a => if a = REG_KEYINPUT then r else s.regs a }

/-- A call of one of the two functions of `Input`. -/
inductive InputCall where
  | pressed
  | held
  deriving DecidableEq, Repr

/-- A sequence of `Input` calls, each made with the key-input register holding
the reading paired with it; the result lists what the `GetKeysPressed` calls
returned, in order. -/
def pressedResults : List (InputCall × Nat) → State → List Nat
  | [], _ => []
  | (InputCall.pressed, r) :: rest, s =>
    let out := Input.GetKeysPressed (setKeyInput r s)
    out.1 :: pressedResults rest out.2
  | (InputCall.held, r) :: rest, s =>
    let out := Input.GetKeysHeld (setKeyInput r s)
    pressedResults rest out.2

/-- The calls of `GetKeysPressed` in a sequence of `Input` calls. -/
def onlyPressed (calls : List (InputCall × Nat)) : List (InputCall × Nat) :=
  calls.filter (fun c => c.1 = InputCall.pressed)

/-- The state left by a sequence of `Input` calls, each made with the key-input
register holding the reading paired with it. -/
def stateAfterCalls : List (InputCall × Nat) → State → State
  | [], s => s
  | (InputCall.pressed, r) :: rest, s =>
    stateAfterCalls rest (Input.GetKeysPressed (setKeyInput r s)).2
  | (InputCall.held, r) :: rest, s =>
    stateAfterCalls rest (Input.GetKeysHeld (setKeyInput r s)).2

/-- Successive polls: `GetKeysPressed` is called once for each reading of the
key-input register, in order; the result lists, for each poll, the value returned
and the snapshot left. -/
def pollTrace : List Nat → State → List (Nat × Nat)
  | [], _ => []
  | r :: rs, s =>
    let out := Input.GetKeysPressed (setKeyInput r s)
    (out.1, out.2.prevKeys) :: pollTrace rs out.2

/-! ## Register writes in program order -/

/-- One store to a memory-mapped register: the address, the value stored and
whether the register is a `u32` (otherwise a `u16`). -/
structure RegWrite where
  addr : Nat
  val : Nat
  wide : Bool
  deriving DecidableEq, Repr

/-- The effect of one store on the state. -/
def RegWrite.run (w : RegWrite) (s : State) : State :=
  if w.wide then write32 s w.addr w.val else write16 s w.addr w.val

/-- The effect of a sequence of stores, first to last. -/
def replay : List RegWrite → State → State
  | [], s => s
  | w :: ws, s => replay ws (w.run s)

/-- A `u16` store on the machine that only records stores: the store is appended
to the record. -/
def logStore16 (log : List RegWrite) (addr v : Nat) : List RegWrite :=
  log ++ [{ addr := addr, val := v, wide := false }]

/-- A `u32` store on the machine that only records stores. -/
def logStore32 (log : List RegWrite) (addr v : Nat) : List RegWrite :=
  log ++ [{ addr := addr, val := v, wide := true }]

/-- The stores `Audio::PlaySound(soundData, length)` performs, in the order it
performs them: its body run on the recording machine from the empty record. -/
def Audio.PlaySoundWrites (soundData length : Nat) : List RegWrite :=
  Audio.PlaySoundOn logStore16 logStore32 soundData length []

/-- The stores `Audio::PlayMusic(musicData, length)` performs, in the order it
performs them. -/
def Audio.PlayMusicWrites (musicData length : Nat) : List RegWrite :=
  Audio.PlayMusicOn logStore16 logStore32 musicData length []

/-- A sequence of stores never writes the source or destination address register
of a DMA channel while the control register of the channel holds a value with
`DMA_ENABLE` that an earlier store of the sequence put there. `enabled` tells
whether the last store to the control register so far had `DMA_ENABLE`. -/
def addressesWhileStopped (cnt sad dad : Nat) : List RegWrite → Bool → Bool
  | [], _ => true
  | w :: ws, enabled =>
    if w.addr = cnt then
      addressesWhileStopped cnt sad dad ws (decide (toU32 w.val &&& DMA_ENABLE ≠ 0))
    else if w.addr = sad ∨ w.addr = dad then
      !enabled && addressesWhileStopped cnt sad dad ws enabled
    else addressesWhileStopped cnt sad dad ws enabled

/-- The registers `Audio::PlaySound` stores to. -/
def playSoundRegs : List Nat :=
  [REG_DMA1SAD, REG_DMA1DAD, REG_DMA1CNT, REG_TM0CNT_L, REG_TM0CNT_H]

/-- The registers `Audio::PlayMusic` stores to. -/
def playMusicRegs : List Nat :=
  [REG_DMA2SAD, REG_DMA2DAD, REG_DMA2CNT, REG_TM1CNT_L, REG_TM1CNT_H]

/-! ## main (main.cpp) -/

/-- The setup of `main` (main.cpp, lines 5-9): `System::Initialize();`
`Graphics::Display::SetMode(MODE_0);`
`Graphics::Display::EnableBackground(BG0_ENABLE);`. -/
def mainSetup (s : State) : State :=
  let s1 := System.Initialize s
  let s2 := Graphics.Display.SetMode MODE_0 s1
  Graphics.Display.EnableBackground BG0_ENABLE s2

/-- One iteration of the loop of `main` (main.cpp, lines 12-21). The hardware
supplies the key-input register value `key` of this iteration and the successive
readings `reads` of IF; the body of `if (keys & KEY_A)` is empty. `none` is
`WaitForVBlank` still spinning when the fuel is gone. -/
def mainIteration (key : Nat) (reads : Nat → Nat) (fuel : Nat) (s : State) : Option State :=
  let out := Input.GetKeysPressed (setKeyInput key s)
  let s1 := if out.1 &&& KEY_A ≠ 0 then out.2 else out.2
  match System.WaitForVBlankOn reads fuel s1 with
  | none => none
  | some res => some res.2

/-- The state at the start of iteration `n` of the loop of `main`, iteration `m`
running against the hardware inputs `hw m`. -/
def mainLoop (hw : Nat → Nat × (Nat → Nat)) (fuel : Nat) : Nat → State → Option State
  | 0, s => some s
  | n + 1, s =>
    match mainLoop hw fuel n s with
    | none => none
    | some sn => mainIteration (hw n).1 (hw n).2 fuel sn

/-! ## Bit-level lemmas -/

theorem toU16_of_lt {x : Nat} (h : x < 2 ^ 16) : toU16 x = x :=
  Nat.mod_eq_of_lt h

theorem toU16_lt (x : Nat) : toU16 x < 2 ^ 16 :=
  Nat.mod_lt _ (by decide)

theorem read16_lt (s : State) (addr : Nat) : read16 s addr < 2 ^ 16 :=
  toU16_lt _

theorem testBit_bitNot {x : Nat} (h : x < 2 ^ 32) (i : Nat) :
    (bitNot x).testBit i = (decide (i < 32) && !x.testBit i) := by
  unfold bitNot
  have : 2 ^ 32 - 1 - x = 2 ^ 32 - (x + 1) := by omega
  rw [this]
  exact Nat.testBit_two_pow_sub_succ h i

theorem testBit_toU16 (x i : Nat) :
    (toU16 x).testBit i = (decide (i < 16) && x.testBit i) := by
  unfold toU16
  exact Nat.testBit_mod_two_pow x 16 i

theorem testBit_KEY_MASK (i : Nat) : KEY_MASK.testBit i = decide (i < 10) := by
  have : KEY_MASK = 2 ^ 10 - 1 := by decide
  rw [this]
  exact Nat.testBit_two_pow_sub_one 10 i

theorem testBit_not16 {x : Nat} (h : x < 2 ^ 16) (i : Nat) :
    (not16 x).testBit i = (decide (i < 16) && !x.testBit i) := by
  unfold not16
  have : 2 ^ 16 - 1 - x = 2 ^ 16 - (x + 1) := by omega
  rw [this]
  exact Nat.testBit_two_pow_sub_succ h i

/-- Bit `i` of `~x & KEY_MASK` stored in a `u16`: set exactly for a key bit that
is 0 in `x`. -/
theorem testBit_currentKeys {x : Nat} (h : x < 2 ^ 16) (i : Nat) :
    (toU16 (bitNot x &&& KEY_MASK)).testBit i = (decide (i < 10) && !x.testBit i) := by
  have h32 : x < 2 ^ 32 := Nat.lt_trans h (by decide)
  rw [testBit_toU16, Nat.testBit_and, testBit_bitNot h32, testBit_KEY_MASK]
  by_cases h10 : i < 10
  · have h16 : i < 16 := by omega
    have h32i : i < 32 := by omega
    simp [h10, h16, h32i]
  · simp [h10]

/-- Bit `i` of the value returned by `GetKeysPressed`. -/
theorem testBit_pressed (s : State) (hp : s.prevKeys < 2 ^ 16) (i : Nat) :
    (Input.GetKeysPressed s).1.testBit i
      = (decide (i < 10) && !(read16 s REG_KEYINPUT).testBit i && !s.prevKeys.testBit i) := by
  have hp32 : s.prevKeys < 2 ^ 32 := Nat.lt_trans hp (by decide)
  show (toU16 (toU16 (bitNot (read16 s REG_KEYINPUT) &&& KEY_MASK) &&& bitNot s.prevKeys)).testBit i = _
  rw [testBit_toU16, Nat.testBit_and, testBit_currentKeys (read16_lt s _), testBit_bitNot hp32]
  by_cases h10 : i < 10
  · have h16 : i < 16 := by omega
    have h32i : i < 32 := by omega
    simp [h10, h16, h32i]
  · simp [h10]

theorem Key.bit_eq_two_pow (k : Key) : k.bit = 2 ^ k.idx := by
  cases k <;> decide

theorem Key.idx_lt (k : Key) : k.idx < 10 := by
  cases k <;> decide

theorem Key.idx_inj {k l : Key} (h : k.idx = l.idx) : k = l := by
  cases k <;> cases l <;> first | rfl | (exact absurd h (by decide))

theorem Key.exists_idx {i : Nat} (h : i < 10) : ∃ k : Key, k.idx = i := by
  interval_cases i
  · exact ⟨Key.A, rfl⟩
  · exact ⟨Key.B, rfl⟩
  · exact ⟨Key.SELECT, rfl⟩
  · exact ⟨Key.START, rfl⟩
  · exact ⟨Key.RIGHT, rfl⟩
  · exact ⟨Key.LEFT, rfl⟩
  · exact ⟨Key.UP, rfl⟩
  · exact ⟨Key.DOWN, rfl⟩
  · exact ⟨Key.R, rfl⟩
  · exact ⟨Key.L, rfl⟩

/-- Bit `i` of the bits of a key set: set exactly when `i` is the bit of a member. -/
theorem testBit_keyBits (K : List Key) (i : Nat) :
    (keyBits K).testBit i = true ↔ ∃ k ∈ K, k.idx = i := by
  induction K with
  | nil => simp [keyBits]
  | cons k ks ih =>
    simp only [keyBits, Nat.testBit_or, Bool.or_eq_true, ih, List.mem_cons, exists_eq_or_imp,
      Key.bit_eq_two_pow, Nat.testBit_two_pow, decide_eq_true_eq]

/-- With an empty snapshot, `GetKeysPressed` returns the bits of the key set the
register shows held. -/
theorem pressed_of_showsHeld (K : List Key) (s : State) (h0 : s.prevKeys = 0)
    (hK : showsHeld (read16 s REG_KEYINPUT) K) :
    (Input.GetKeysPressed s).1 = keyBits K := by
  apply Nat.eq_of_testBit_eq
  intro i
  rw [testBit_pressed s (by rw [h0]; decide) i, h0, Nat.zero_testBit, Bool.not_false,
    Bool.and_true]
  rw [Bool.eq_iff_iff, testBit_keyBits, Bool.and_eq_true, decide_eq_true_eq,
    Bool.not_eq_true_eq_eq_false]
  constructor
  · rintro ⟨h10, hbit⟩
    obtain ⟨k, hk⟩ := Key.exists_idx h10
    exact ⟨k, (hK k).1 (hk ▸ hbit), hk⟩
  · rintro ⟨k, hmem, hk⟩
    exact ⟨hk ▸ k.idx_lt, hk ▸ (hK k).2 hmem⟩

/-- A second `GetKeysPressed` right after a first, the register not having
changed, returns 0. -/
theorem pressed_twice (t : State) :
    (Input.GetKeysPressed (Input.GetKeysPressed t).2).1 = 0 := by
  have hlt : (Input.GetKeysPressed t).2.prevKeys < 2 ^ 16 := toU16_lt _
  apply Nat.eq_of_testBit_eq
  intro i
  rw [testBit_pressed _ hlt i, Nat.zero_testBit]
  have hprev : (Input.GetKeysPressed t).2.prevKeys
      = toU16 (bitNot (read16 t REG_KEYINPUT) &&& KEY_MASK) := rfl
  have hread : read16 (Input.GetKeysPressed t).2 REG_KEYINPUT = read16 t REG_KEYINPUT := rfl
  rw [hprev, hread, testBit_currentKeys (read16_lt t _)]
  cases decide (i < 10) <;> cases (read16 t REG_KEYINPUT).testBit i <;> rfl

/-- The loop condition of `WaitForVBlank` tests bit 0 of the value read. -/
theorem vblank_test (x : Nat) : toU16 x &&& IRQ_VBLANK = 0 ↔ x.testBit 0 = false := by
  have h1 : toU16 x &&& IRQ_VBLANK = x % 2 ^ 16 % 2 := Nat.and_one_is_mod _
  have h2 : x % 2 ^ 16 % 2 = x % 2 := Nat.mod_mod_of_dvd x (by decide)
  rw [h1, h2, Nat.testBit_zero]
  simp

/-- The spin loop runs out of fuel when all the readings it is given are clear. -/
theorem spinVBlank_none (reads : Nat → Nat) (fuel i : Nat)
    (h : ∀ j, i ≤ j → j < i + fuel → (reads j).testBit 0 = false) :
    System.spinVBlank reads fuel i = none := by
  induction fuel generalizing i with
  | zero => rfl
  | succ fuel ih =>
    have hi : toU16 (reads i) &&& IRQ_VBLANK = 0 :=
      (vblank_test _).2 (h i (Nat.le_refl i) (by omega))
    rw [System.spinVBlank, if_pos hi]
    exact ih (i + 1) (fun j h1 h2 => h j (by omega) (by omega))

/-- The spin loop is left at the first reading with the VBlank bit set. -/
theorem spinVBlank_some (reads : Nat → Nat) (n fuel i : Nat)
    (hclear : ∀ j, i ≤ j → j < i + n → (reads j).testBit 0 = false)
    (hset : (reads (i + n)).testBit 0 = true) (hfuel : n < fuel) :
    System.spinVBlank reads fuel i = some (i + n) := by
  induction n generalizing fuel i with
  | zero =>
    obtain ⟨fuel, rfl⟩ : ∃ f, fuel = f + 1 := ⟨fuel - 1, by omega⟩
    have hi : ¬ toU16 (reads i) &&& IRQ_VBLANK = 0 := by
      rw [vblank_test]
      simpa using hset
    rw [System.spinVBlank, if_neg hi]
    rfl
  | succ n ih =>
    obtain ⟨fuel, rfl⟩ : ∃ f, fuel = f + 1 := ⟨fuel - 1, by omega⟩
    have hi : toU16 (reads i) &&& IRQ_VBLANK = 0 :=
      (vblank_test _).2 (hclear i (Nat.le_refl i) (by omega))
    rw [System.spinVBlank, if_pos hi]
    have hstep := ih fuel (i + 1) (fun j h1 h2 => hclear j (by omega) (by omega))
      (by rw [show i + 1 + n = i + (n + 1) by omega]; exact hset) (by omega)
    rw [hstep, show i + 1 + n = i + (n + 1) by omega]

/-- Whatever the store operation, `WaitForVBlank` returns only from a state whose
IF has the VBlank bit set, and returns that state after the store of `IRQ_VBLANK`
to IF. -/
theorem waitForVBlankWith_some (store : State → Nat → Nat → State) (fuel : Nat)
    (s s1 : State) (h : System.WaitForVBlankWith store fuel s = some s1) :
    (read16 s REG_IF).testBit 0 = true ∧ s1 = store s REG_IF IRQ_VBLANK := by
  induction fuel with
  | zero => simp [System.WaitForVBlankWith] at h
  | succ fuel ih =>
    rw [System.WaitForVBlankWith] at h
    by_cases hc : read16 s REG_IF &&& IRQ_VBLANK = 0
    · rw [if_pos hc] at h
      exact ih h
    · rw [if_neg hc] at h
      refine ⟨?_, (Option.some.inj h).symm⟩
      have := (vblank_test (s.regs REG_IF)).not.1 hc
      have hbit : (s.regs REG_IF).testBit 0 = true := by simpa using this
      unfold read16
      rw [testBit_toU16]
      simp [hbit]

/-- Whatever the store operation, `WaitForVBlank` returns, at the first evaluation
of the loop condition, from every state whose IF has the VBlank bit set. -/
theorem waitForVBlankWith_returns (store : State → Nat → Nat → State) (fuel : Nat)
    (s : State) (hbit : (read16 s REG_IF).testBit 0 = true) (hfuel : 0 < fuel) :
    System.WaitForVBlankWith store fuel s = some (store s REG_IF IRQ_VBLANK) := by
  obtain ⟨f, rfl⟩ : ∃ f, fuel = f + 1 := ⟨fuel - 1, by omega⟩
  have hc : ¬ read16 s REG_IF &&& IRQ_VBLANK = 0 := by
    intro h0
    have h1 : toU16 (read16 s REG_IF) &&& IRQ_VBLANK = 0 := by
      rw [toU16_of_lt (read16_lt s _)]
      exact h0
    rw [(vblank_test _).1 h1] at hbit
    exact absurd hbit (by decide)
  rw [System.WaitForVBlankWith, if_neg hc]

/-- On the register file, `WaitForVBlank` returns exactly from the states whose
IF has the VBlank bit set, and then leaves `IRQ_VBLANK` in IF. -/
theorem waitForVBlank_some (fuel : Nat) (s s1 : State)
    (h : System.WaitForVBlank fuel s = some s1) :
    (read16 s REG_IF).testBit 0 = true ∧ s1 = write16 s REG_IF IRQ_VBLANK :=
  waitForVBlankWith_some write16 fuel s s1 h

theorem toU32_of_lt {x : Nat} (h : x < 2 ^ 32) : toU32 x = x :=
  Nat.mod_eq_of_lt h

/-- ORing the same flags into a 16-bit value a second time changes nothing. -/
theorem or_toU16_idem (d f : Nat) : toU16 (toU16 (toU16 (d ||| f)) ||| f) = toU16 (d ||| f) := by
  apply Nat.eq_of_testBit_eq
  intro i
  simp only [testBit_toU16, Nat.testBit_or]
  cases decide (i < 16) <;> cases d.testBit i <;> cases f.testBit i <;> rfl

/-- What the calls of `GetKeysPressed` in a sequence return depends on the state
the sequence starts in through the snapshot only. -/
theorem pressedResults_congr (calls : List (InputCall × Nat)) (s1 s2 : State)
    (h : s1.prevKeys = s2.prevKeys) : pressedResults calls s1 = pressedResults calls s2 := by
  induction calls generalizing s1 s2 with
  | nil => rfl
  | cons c rest ih =>
    obtain ⟨kind, r⟩ := c
    cases kind with
    | pressed =>
      have hval : (Input.GetKeysPressed (setKeyInput r s1)).1
          = (Input.GetKeysPressed (setKeyInput r s2)).1 := by
        simp [Input.GetKeysPressed, setKeyInput, read16, h]
      simp only [pressedResults, hval]
      congr 1
      apply ih
      simp [Input.GetKeysPressed, setKeyInput, read16]
    | held =>
      simp only [pressedResults]
      apply ih
      simpa [Input.GetKeysHeld, setKeyInput] using h

/-- Dropping the `GetKeysHeld` calls from a sequence of `Input` calls leaves what
its `GetKeysPressed` calls return. -/
theorem pressedResults_onlyPressed (calls : List (InputCall × Nat)) (s : State) :
    pressedResults calls s = pressedResults (onlyPressed calls) s := by
  induction calls generalizing s with
  | nil => rfl
  | cons c rest ih =>
    obtain ⟨kind, r⟩ := c
    cases kind with
    | pressed =>
      have hf : onlyPressed ((InputCall.pressed, r) :: rest)
          = (InputCall.pressed, r) :: onlyPressed rest := by
        simp [onlyPressed]
      rw [hf]
      simp only [pressedResults]
      rw [ih]
    | held =>
      have hf : onlyPressed ((InputCall.held, r) :: rest) = onlyPressed rest := by
        simp [onlyPressed]
      rw [hf]
      simp only [pressedResults]
      rw [ih]
      apply pressedResults_congr
      rfl

/-! ## System::Initialize -/

/-- C1: from every prior state, after `System::Initialize()` the register IE holds
exactly `IRQ_VBLANK` (0x0001), IF holds 0, IME holds 1 and DISPCNT holds 0. -/
theorem initialize_registers (s : State) :
    (System.Initialize s).regs REG_IE = IRQ_VBLANK ∧ IRQ_VBLANK = 0x0001
      ∧ (System.Initialize s).regs REG_IF = 0
      ∧ (System.Initialize s).regs REG_IME = 1
      ∧ (System.Initialize s).regs REG_DISPCNT = 0 := by
  refine ⟨?_, rfl, ?_, ?_, ?_⟩ <;>
    simp [System.Initialize, System.RegisterRamReset, System.irqInit, System.irqEnable,
      write16, read16, toU16, REG_IE, REG_IF, REG_IME, REG_DISPCNT, IRQ_VBLANK]

/-! ## Input::GetKeysPressed -/

/-- C2: for a 16-bit key-register value `r` and a 16-bit snapshot `p`,
`GetKeysPressed()` returns `(NOT r AND KEY_MASK) AND (NOT p)`, a 16-bit value,
leaves the snapshot equal to `NOT r AND KEY_MASK`, and writes no register. -/
theorem getKeysPressed_spec (s : State) (r p : Nat) (hr : r < 2 ^ 16) (hp : p < 2 ^ 16)
    (hreg : s.regs REG_KEYINPUT = r) (hprev : s.prevKeys = p) :
    (Input.GetKeysPressed s).1 = (not16 r &&& KEY_MASK) &&& not16 p
      ∧ (Input.GetKeysPressed s).1 < 2 ^ 16
      ∧ (Input.GetKeysPressed s).2.prevKeys = not16 r &&& KEY_MASK
      ∧ (Input.GetKeysPressed s).2.regs = s.regs := by
  have hread : read16 s REG_KEYINPUT = r := by
    unfold read16
    rw [hreg]
    exact toU16_of_lt hr
  refine ⟨?_, toU16_lt _, ?_, rfl⟩
  · apply Nat.eq_of_testBit_eq
    intro i
    rw [testBit_pressed s (hprev ▸ hp) i, hread, hprev, Nat.testBit_and, Nat.testBit_and,
      testBit_not16 hr, testBit_not16 hp, testBit_KEY_MASK]
    by_cases h10 : i < 10
    · have h16 : i < 16 := by omega
      simp [h10, h16]
    · simp [h10]
  · show toU16 (bitNot (read16 s REG_KEYINPUT) &&& KEY_MASK) = _
    apply Nat.eq_of_testBit_eq
    intro i
    rw [testBit_currentKeys (read16_lt s _), hread, Nat.testBit_and, testBit_not16 hr,
      testBit_KEY_MASK]
    by_cases h10 : i < 10
    · have h16 : i < 16 := by omega
      simp [h10, h16]
    · simp [h10]

/-- Witness of C2: key A newly held (register 0x03FE) with B in the snapshot. -/
theorem getKeysPressed_spec_witness :
    (Input.GetKeysPressed { regs := regsWith REG_KEYINPUT 0x03FE, prevKeys := 0x0002 }).1
        = (not16 0x03FE &&& KEY_MASK) &&& not16 0x0002
      ∧ (Input.GetKeysPressed { regs := regsWith REG_KEYINPUT 0x03FE, prevKeys := 0x0002 }).1
        < 2 ^ 16
      ∧ (Input.GetKeysPressed
          { regs := regsWith REG_KEYINPUT 0x03FE, prevKeys := 0x0002 }).2.prevKeys
        = not16 0x03FE &&& KEY_MASK
      ∧ (Input.GetKeysPressed { regs := regsWith REG_KEYINPUT 0x03FE, prevKeys := 0x0002 }).2.regs
        = regsWith REG_KEYINPUT 0x03FE :=
  getKeysPressed_spec { regs := regsWith REG_KEYINPUT 0x03FE, prevKeys := 0x0002 }
    0x03FE 0x0002 (by decide) (by decide) (by simp [regsWith]) rfl

/-- C3: for every key set `K`, if the snapshot is 0 (nothing held at the last poll)
and the key-input register shows exactly the keys of `K` held, `GetKeysPressed()`
returns exactly the bits of `K`, for `K = {A}` exactly `KEY_A`; and from every
state `t` (any snapshot, any register value) a second consecutive call, the
register unchanged, returns 0. -/
theorem getKeysPressed_edge (K : List Key) (s t : State) :
    (s.prevKeys = 0 → showsHeld (read16 s REG_KEYINPUT) K →
        (Input.GetKeysPressed s).1 = keyBits K)
      ∧ (s.prevKeys = 0 → showsHeld (read16 s REG_KEYINPUT) [Key.A] →
        (Input.GetKeysPressed s).1 = KEY_A)
      ∧ (Input.GetKeysPressed t).2.regs = t.regs
      ∧ (Input.GetKeysPressed (Input.GetKeysPressed t).2).1 = 0 :=
  ⟨pressed_of_showsHeld K s, fun h0 hA => pressed_of_showsHeld [Key.A] s h0 hA, rfl,
    pressed_twice t⟩

/-- Witness of C3: the register goes to 0x03FE (only A held) after a poll that saw
nothing held, and A and START are reported for the register 0x03F6. -/
theorem getKeysPressed_edge_witness :
    (Input.GetKeysPressed { regs := regsWith REG_KEYINPUT 0x03F6, prevKeys := 0 }).1
        = keyBits [Key.A, Key.START]
      ∧ (Input.GetKeysPressed { regs := regsWith REG_KEYINPUT 0x03FE, prevKeys := 0 }).1
        = KEY_A :=
  ⟨(getKeysPressed_edge [Key.A, Key.START]
      { regs := regsWith REG_KEYINPUT 0x03F6, prevKeys := 0 }
      { regs := regsWith REG_KEYINPUT 0x03F6, prevKeys := 0 }).1 rfl (by decide),
   (getKeysPressed_edge [Key.A]
      { regs := regsWith REG_KEYINPUT 0x03FE, prevKeys := 0 }
      { regs := regsWith REG_KEYINPUT 0x03FE, prevKeys := 0 }).2.1 rfl (by decide)⟩

/-! ## System::WaitForVBlank -/

/-- C4 fails on the register file in which IF holds the value last written, at the
state with IF = 0x0001 (VBlank pending) and every other register 0:
`WaitForVBlank()` returns at the first evaluation of the loop condition, and in
the state it returns in IF holds `IRQ_VBLANK`, the value the function stored, so
the VBlank bit of IF is set there, not clear. -/
theorem waitForVBlank_flag_after_return :
    (System.WaitForVBlank 1 { regs := regsWith REG_IF 0x0001, prevKeys := 0 }).map
        (fun s1 => s1.regs REG_IF) = some IRQ_VBLANK
      ∧ (System.WaitForVBlank 1 { regs := regsWith REG_IF 0x0001, prevKeys := 0 }).map
        (fun s1 => (read16 s1 REG_IF).testBit 0) = some true := by
  constructor <;> decide

/-- C4 as amended: on a register file whose IF is write-1-to-acknowledge (a store
clears the bits that are 1 in the value stored; every other register holds the
value last written), every state from which `WaitForVBlank()` returns had the
VBlank bit of IF set, and in the state it returns in that bit is clear, the other
bits of IF are as they were and no other register has changed; the call does
return, at the first evaluation of the loop condition, from every state whose IF
has the VBlank bit set. On the register file in which IF too holds the value last
written, IF holds `IRQ_VBLANK` in the state the call returns in. -/
theorem waitForVBlank_acknowledges (fuel : Nat) (s s1 : State) :
    (System.WaitForVBlankWith writeAck16 fuel s = some s1 →
        (read16 s REG_IF).testBit 0 = true
          ∧ (read16 s1 REG_IF).testBit 0 = false
          ∧ (∀ i, 0 < i → (read16 s1 REG_IF).testBit i = (read16 s REG_IF).testBit i)
          ∧ (∀ a, a ≠ REG_IF → s1.regs a = s.regs a)
          ∧ s1.prevKeys = s.prevKeys)
      ∧ ((read16 s REG_IF).testBit 0 = true → 0 < fuel →
        System.WaitForVBlankWith writeAck16 fuel s = some (writeAck16 s REG_IF IRQ_VBLANK))
      ∧ (System.WaitForVBlank fuel s = some s1 → s1.regs REG_IF = IRQ_VBLANK) := by
  have hbits : ∀ i, (read16 (writeAck16 s REG_IF IRQ_VBLANK) REG_IF).testBit i
      = ((read16 s REG_IF).testBit i && !decide (i = 0)) := by
    intro i
    have hreg : read16 (writeAck16 s REG_IF IRQ_VBLANK) REG_IF
        = toU16 (toU16 (read16 s REG_IF &&& bitNot (toU16 IRQ_VBLANK))) := by
      simp [read16, writeAck16]
    have h1 : toU16 IRQ_VBLANK = 2 ^ 0 := by decide
    have h32 : (2 : Nat) ^ 0 < 2 ^ 32 := by decide
    have hlt := Nat.testBit_lt_two_pow (read16_lt s REG_IF)
    rw [hreg, testBit_toU16, testBit_toU16, Nat.testBit_and, h1, testBit_bitNot h32,
      Nat.testBit_two_pow]
    by_cases h16 : i < 16
    · have h32i : i < 32 := by omega
      by_cases h0 : i = 0
      · simp [h0]
      · have h0b : ¬ 0 = i := fun h => h0 h.symm
        simp [h16, h32i, h0, h0b]
    · have hge : 2 ^ 16 ≤ 2 ^ i := Nat.pow_le_pow_right (by decide) (by omega)
      have hf : (read16 s REG_IF).testBit i = false :=
        Nat.testBit_lt_two_pow (Nat.lt_of_lt_of_le (read16_lt s REG_IF) hge)
      simp [h16, hf]
  refine ⟨?_, waitForVBlankWith_returns writeAck16 fuel s, ?_⟩
  · intro h
    obtain ⟨hset, hs1⟩ := waitForVBlankWith_some writeAck16 fuel s s1 h
    subst hs1
    refine ⟨hset, ?_, ?_, ?_, rfl⟩
    · rw [hbits 0]
      simp
    · intro i hi
      have h0 : ¬ i = 0 := by omega
      rw [hbits i]
      simp [h0]
    · intro a ha
      simp [writeAck16, ha]
  · intro h
    rw [(waitForVBlank_some fuel s s1 h).2]
    simp [write16, toU16, IRQ_VBLANK]

/-- Witness of C4 as amended: IF holds 0x0003, VBlank and one more interrupt
pending; the call returns and leaves 0x0002 in IF. -/
theorem waitForVBlank_acknowledges_witness :
    System.WaitForVBlankWith writeAck16 1 { regs := regsWith REG_IF 0x0003, prevKeys := 0 }
        = some (writeAck16 { regs := regsWith REG_IF 0x0003, prevKeys := 0 } REG_IF IRQ_VBLANK)
      ∧ (read16 (writeAck16 { regs := regsWith REG_IF 0x0003, prevKeys := 0 } REG_IF
          IRQ_VBLANK) REG_IF).testBit 0 = false
      ∧ read16 (writeAck16 { regs := regsWith REG_IF 0x0003, prevKeys := 0 } REG_IF
          IRQ_VBLANK) REG_IF = 0x0002 :=
  ⟨(waitForVBlank_acknowledges 1 { regs := regsWith REG_IF 0x0003, prevKeys := 0 }
      (writeAck16 { regs := regsWith REG_IF 0x0003, prevKeys := 0 } REG_IF IRQ_VBLANK)).2.1
      (by decide) (by decide),
   ((waitForVBlank_acknowledges 1 { regs := regsWith REG_IF 0x0003, prevKeys := 0 }
      (writeAck16 { regs := regsWith REG_IF 0x0003, prevKeys := 0 } REG_IF IRQ_VBLANK)).1
      rfl).2.1,
   by decide⟩

/-- C5: `WaitForVBlank()` against successive readings of IF. While every reading
so far has the VBlank bit clear the call has not returned (no amount of fuel up to
that reading yields a result); it returns at the first reading whose VBlank bit is
set, at reading 0 if that one has it; when it returns, the reading it returned at
has the bit set and all earlier ones have it clear; and if no reading has the bit
set it never returns. -/
theorem waitForVBlank_returns_at_first_vblank (reads : Nat → Nat) (s : State) :
    (∀ n fuel, (∀ j < n, (reads j).testBit 0 = false) → fuel ≤ n →
        System.WaitForVBlankOn reads fuel s = none)
      ∧ (∀ n fuel, (∀ j < n, (reads j).testBit 0 = false) → (reads n).testBit 0 = true →
        n < fuel →
        System.WaitForVBlankOn reads fuel s = some (n, write16 s REG_IF IRQ_VBLANK))
      ∧ ((reads 0).testBit 0 = true → ∀ fuel, 0 < fuel →
        System.WaitForVBlankOn reads fuel s = some (0, write16 s REG_IF IRQ_VBLANK))
      ∧ (∀ n fuel s1, System.WaitForVBlankOn reads fuel s = some (n, s1) →
        (reads n).testBit 0 = true ∧ ∀ j < n, (reads j).testBit 0 = false)
      ∧ ((∀ j, (reads j).testBit 0 = false) → ∀ fuel,
        System.WaitForVBlankOn reads fuel s = none) := by
  have hnone : ∀ n fuel, (∀ j < n, (reads j).testBit 0 = false) → fuel ≤ n →
      System.WaitForVBlankOn reads fuel s = none := by
    intro n fuel hclear hfuel
    have := spinVBlank_none reads fuel 0 (fun j _ h2 => hclear j (by omega))
    simp [System.WaitForVBlankOn, this]
  have hsome : ∀ n fuel, (∀ j < n, (reads j).testBit 0 = false) →
      (reads n).testBit 0 = true → n < fuel →
      System.WaitForVBlankOn reads fuel s = some (n, write16 s REG_IF IRQ_VBLANK) := by
    intro n fuel hclear hset hfuel
    have := spinVBlank_some reads n fuel 0 (fun j _ h2 => hclear j (by omega))
      (by rw [Nat.zero_add]; exact hset) hfuel
    simp [System.WaitForVBlankOn, this]
  refine ⟨hnone, hsome, fun h0 fuel hf => hsome 0 fuel (fun j hj => absurd hj (by omega)) h0 hf,
    ?_, fun hall fuel => hnone fuel fuel (fun j _ => hall j) (Nat.le_refl _)⟩
  intro n fuel s1 hret
  by_cases hex : ∃ m, m < fuel ∧ (reads m).testBit 0 = true
  · classical
    let m := Nat.find hex
    have hm : m < fuel ∧ (reads m).testBit 0 = true := Nat.find_spec hex
    have hmin : ∀ j < m, (reads j).testBit 0 = false := by
      intro j hj
      have hnot := Nat.find_min hex hj
      have hjf : j < fuel := by omega
      cases hb : (reads j).testBit 0
      · rfl
      · exact absurd ⟨hjf, hb⟩ hnot
    have hrun := hsome m fuel hmin hm.2 hm.1
    rw [hrun] at hret
    have hnm : m = n := congrArg Prod.fst (Option.some.inj hret)
    exact hnm ▸ ⟨hm.2, hmin⟩
  · have hclear : ∀ j < fuel, (reads j).testBit 0 = false := by
      intro j hj
      cases hb : (reads j).testBit 0
      · rfl
      · exact absurd ⟨j, hj, hb⟩ hex
    rw [hnone fuel fuel hclear (Nat.le_refl _)] at hret
    exact absurd hret (by simp)

/-- Witness of C5: the readings 0, 0, 1, 1, ... make the call return at reading 2,
and not before. -/
theorem waitForVBlank_returns_at_first_vblank_witness :
    System.WaitForVBlankOn (fun i => if i < 2 then 0 else 1) 2
        { regs := regsWith REG_IF 0, prevKeys := 0 } = none
      ∧ System.WaitForVBlankOn (fun i => if i < 2 then 0 else 1) 3
        { regs := regsWith REG_IF 0, prevKeys := 0 }
        = some (2, write16 { regs := regsWith REG_IF 0, prevKeys := 0 } REG_IF IRQ_VBLANK) :=
  ⟨(waitForVBlank_returns_at_first_vblank (fun i => if i < 2 then 0 else 1)
      { regs := regsWith REG_IF 0, prevKeys := 0 }).1 2 2 (by decide) (by decide),
   (waitForVBlank_returns_at_first_vblank (fun i => if i < 2 then 0 else 1)
      { regs := regsWith REG_IF 0, prevKeys := 0 }).2.1 2 3 (by decide) (by decide)
      (by decide)⟩

/-! ## Audio::PlaySound, Audio::PlayMusic -/

/-- C6: for a 32-bit buffer address `a` and any two length values, after
`PlaySound(a, length)` DMA1SAD holds `a`, DMA1DAD holds the address of FIFO port A
(0x40000A0) and DMA1CNT holds `DMA_ENABLE | DMA_TIMING_FIFO | DMA_32`; after
`PlayMusic(a, length)` DMA2SAD holds `a`, DMA2DAD the address of FIFO port B
(0x40000A4) and DMA2CNT the same control word; the state reached does not depend
on the length, 0 included. -/
theorem play_dma_registers (a length length2 : Nat) (ha : a < 2 ^ 32) (s : State) :
    (Audio.PlaySound a length s).regs REG_DMA1SAD = a
      ∧ (Audio.PlaySound a length s).regs REG_DMA1DAD = 0x40000A0
      ∧ (Audio.PlaySound a length s).regs REG_DMA1CNT
        = DMA_ENABLE ||| DMA_TIMING_FIFO ||| DMA_32
      ∧ (Audio.PlayMusic a length s).regs REG_DMA2SAD = a
      ∧ (Audio.PlayMusic a length s).regs REG_DMA2DAD = 0x40000A4
      ∧ (Audio.PlayMusic a length s).regs REG_DMA2CNT
        = DMA_ENABLE ||| DMA_TIMING_FIFO ||| DMA_32
      ∧ Audio.PlaySound a length s = Audio.PlaySound a length2 s
      ∧ Audio.PlayMusic a length s = Audio.PlayMusic a length2 s
      ∧ Audio.PlaySound a 0 s = Audio.PlaySound a length s
      ∧ Audio.PlayMusic a 0 s = Audio.PlayMusic a length s := by
  have haa : a % 4294967296 = a := Nat.mod_eq_of_lt ha
  refine ⟨?_, ?_, ?_, ?_, ?_, ?_, rfl, rfl, rfl, rfl⟩ <;>
    simp [Audio.PlaySound, Audio.PlaySoundOn, Audio.PlayMusic, Audio.PlayMusicOn, write32, write16, toU32, haa, REG_DMA1SAD,
      REG_DMA1DAD, REG_DMA1CNT, REG_DMA2SAD, REG_DMA2DAD, REG_DMA2CNT, REG_TM0CNT_L,
      REG_TM0CNT_H, REG_TM1CNT_L, REG_TM1CNT_H, REG_FIFO_A, REG_FIFO_B, DMA_ENABLE,
      DMA_TIMING_FIFO, DMA_32]

/-- Witness of C6: a buffer at 0x02000000 (work RAM), lengths 0 and 4096. -/
theorem play_dma_registers_witness :
    (Audio.PlaySound 0x02000000 0 { regs := regsWith REG_DMA1CNT 7, prevKeys := 0 }).regs
        REG_DMA1SAD = 0x02000000
      ∧ (Audio.PlayMusic 0x02000000 0 { regs := regsWith REG_DMA1CNT 7, prevKeys := 0 }).regs
        REG_DMA2CNT = DMA_ENABLE ||| DMA_TIMING_FIFO ||| DMA_32 :=
  ⟨(play_dma_registers 0x02000000 0 4096 (by decide)
      { regs := regsWith REG_DMA1CNT 7, prevKeys := 0 }).1,
   (play_dma_registers 0x02000000 0 4096 (by decide)
      { regs := regsWith REG_DMA1CNT 7, prevKeys := 0 }).2.2.2.2.2.1⟩

/-! ## Graphics::Display -/

/-- C7: for a 16-bit `mode` and every prior state, also one left by an earlier
`EnableBackground(bg)`, after `SetMode(mode)` DISPCNT holds exactly `mode`. -/
theorem setMode_overwrites (mode bg : Nat) (hm : mode < 2 ^ 16) (s : State) :
    (Graphics.Display.SetMode mode s).regs REG_DISPCNT = mode
      ∧ (Graphics.Display.SetMode mode (Graphics.Display.EnableBackground bg s)).regs
        REG_DISPCNT = mode := by
  constructor <;> simp [Graphics.Display.SetMode, write16, toU16_of_lt hm]

/-- Witness of C7: `SetMode(MODE_1)` on a register that had BG0 and BG1 enabled. -/
theorem setMode_overwrites_witness :
    (Graphics.Display.SetMode MODE_1
        { regs := regsWith REG_DISPCNT 0x0300, prevKeys := 0 }).regs REG_DISPCNT = MODE_1
      ∧ (Graphics.Display.SetMode MODE_1 (Graphics.Display.EnableBackground BG1_ENABLE
        { regs := regsWith REG_DISPCNT 0x0300, prevKeys := 0 })).regs REG_DISPCNT = MODE_1 :=
  setMode_overwrites MODE_1 BG1_ENABLE (by decide)
    { regs := regsWith REG_DISPCNT 0x0300, prevKeys := 0 }

/-- C8: for 16-bit `m` and `bgFlags`, after `SetMode(m)` then
`EnableBackground(bgFlags)` DISPCNT holds `m OR bgFlags`; for every prior 16-bit
DISPCNT value `d`, `EnableBackground(bgFlags)` leaves DISPCNT holding
`d OR bgFlags`, and every bit of `d` that was set is still set. -/
theorem enableBackground_or (m bgFlags d : Nat) (hm : m < 2 ^ 16) (hf : bgFlags < 2 ^ 16)
    (hd : d < 2 ^ 16) (s : State) (hs : s.regs REG_DISPCNT = d) :
    (Graphics.Display.EnableBackground bgFlags (Graphics.Display.SetMode m s)).regs REG_DISPCNT
        = m ||| bgFlags
      ∧ (Graphics.Display.EnableBackground bgFlags s).regs REG_DISPCNT = d ||| bgFlags
      ∧ ∀ i, d.testBit i = true →
        ((Graphics.Display.EnableBackground bgFlags s).regs REG_DISPCNT).testBit i = true := by
  have h1 : (Graphics.Display.EnableBackground bgFlags s).regs REG_DISPCNT = d ||| bgFlags := by
    simp only [Graphics.Display.EnableBackground, write16, read16, if_true, hs]
    rw [toU16_of_lt hd, toU16_of_lt (Nat.or_lt_two_pow hd hf)]
  refine ⟨?_, h1, ?_⟩
  · simp only [Graphics.Display.EnableBackground, Graphics.Display.SetMode, write16, read16,
      if_true]
    rw [toU16_of_lt hm, toU16_of_lt hm, toU16_of_lt (Nat.or_lt_two_pow hm hf)]
  · intro i hi
    rw [h1, Nat.testBit_or, hi]
    rfl

/-- Witness of C8: `SetMode(MODE_1)` then `EnableBackground(BG0_ENABLE)`, from a
register that held 0x0203. -/
theorem enableBackground_or_witness :
    (Graphics.Display.EnableBackground BG0_ENABLE (Graphics.Display.SetMode MODE_1
        { regs := regsWith REG_DISPCNT 0x0203, prevKeys := 0 })).regs REG_DISPCNT
        = MODE_1 ||| BG0_ENABLE
      ∧ (Graphics.Display.EnableBackground BG0_ENABLE
        { regs := regsWith REG_DISPCNT 0x0203, prevKeys := 0 }).regs REG_DISPCNT
        = 0x0203 ||| BG0_ENABLE :=
  ⟨(enableBackground_or MODE_1 BG0_ENABLE 0x0203 (by decide) (by decide) (by decide)
      { regs := regsWith REG_DISPCNT 0x0203, prevKeys := 0 } (by simp [regsWith])).1,
   (enableBackground_or MODE_1 BG0_ENABLE 0x0203 (by decide) (by decide) (by decide)
      { regs := regsWith REG_DISPCNT 0x0203, prevKeys := 0 } (by simp [regsWith])).2.1⟩

/-- C9: `EnableBackground` is idempotent: from every state and for every
`bgFlags`, calling it twice leaves the same state as calling it once. -/
theorem enableBackground_idempotent (bgFlags : Nat) (s : State) :
    Graphics.Display.EnableBackground bgFlags (Graphics.Display.EnableBackground bgFlags s)
      = Graphics.Display.EnableBackground bgFlags s := by
  simp only [Graphics.Display.EnableBackground, write16, read16, if_true]
  congr 1
  funext a
  by_cases ha : a = REG_DISPCNT
  · simp only [ha, if_true]
    exact or_toU16_idem _ _
  · simp only [ha, if_false]

/-! ## Input::GetKeysHeld -/

/-- C10: `GetKeysHeld()` is stateless. For a 16-bit register value `r` it returns
`NOT r AND KEY_MASK` and leaves the state (snapshot and registers) as it was, so
a second call returns the same value; the value is non-zero whenever a key is
held (some key bit of `r` is 0); and the `GetKeysPressed` calls of any sequence of
`Input` calls return the same with its `GetKeysHeld` calls dropped. -/
theorem getKeysHeld_stateless (s : State) (r : Nat) (hr : r < 2 ^ 16)
    (hreg : s.regs REG_KEYINPUT = r) (calls : List (InputCall × Nat)) :
    (Input.GetKeysHeld s).1 = not16 r &&& KEY_MASK
      ∧ (Input.GetKeysHeld s).2 = s
      ∧ (Input.GetKeysHeld (Input.GetKeysHeld s).2).1 = (Input.GetKeysHeld s).1
      ∧ ((∃ k : Key, r.testBit k.idx = false) → (Input.GetKeysHeld s).1 ≠ 0)
      ∧ pressedResults calls s = pressedResults (onlyPressed calls) s := by
  have hread : read16 s REG_KEYINPUT = r := by
    unfold read16
    rw [hreg]
    exact toU16_of_lt hr
  have hbit : ∀ i, (Input.GetKeysHeld s).1.testBit i = (decide (i < 10) && !r.testBit i) := by
    intro i
    show (toU16 (bitNot (read16 s REG_KEYINPUT) &&& KEY_MASK)).testBit i = _
    rw [testBit_currentKeys (read16_lt s _), hread]
  refine ⟨?_, rfl, rfl, ?_, pressedResults_onlyPressed calls s⟩
  · apply Nat.eq_of_testBit_eq
    intro i
    rw [hbit, Nat.testBit_and, testBit_not16 hr, testBit_KEY_MASK]
    by_cases h10 : i < 10
    · have h16 : i < 16 := by omega
      simp [h10, h16]
    · simp [h10]
  · rintro ⟨k, hk⟩ hzero
    have := hbit k.idx
    rw [hzero, Nat.zero_testBit, hk] at this
    simp [k.idx_lt] at this

/-- Witness of C10: A and B held (register 0x03FC), and a `GetKeysHeld` call
between two `GetKeysPressed` calls. -/
theorem getKeysHeld_stateless_witness :
    (Input.GetKeysHeld { regs := regsWith REG_KEYINPUT 0x03FC, prevKeys := 0x0001 }).1
        = not16 0x03FC &&& KEY_MASK
      ∧ (Input.GetKeysHeld { regs := regsWith REG_KEYINPUT 0x03FC, prevKeys := 0x0001 }).1 ≠ 0
      ∧ pressedResults
          [(InputCall.pressed, 0x03FE), (InputCall.held, 0x03FC), (InputCall.pressed, 0x03FC)]
          { regs := regsWith REG_KEYINPUT 0x03FC, prevKeys := 0x0001 }
        = pressedResults
          (onlyPressed
            [(InputCall.pressed, 0x03FE), (InputCall.held, 0x03FC), (InputCall.pressed, 0x03FC)])
          { regs := regsWith REG_KEYINPUT 0x03FC, prevKeys := 0x0001 } :=
  ⟨(getKeysHeld_stateless { regs := regsWith REG_KEYINPUT 0x03FC, prevKeys := 0x0001 } 0x03FC
      (by decide) (by simp [regsWith])
      [(InputCall.pressed, 0x03FE), (InputCall.held, 0x03FC), (InputCall.pressed, 0x03FC)]).1,
   (getKeysHeld_stateless { regs := regsWith REG_KEYINPUT 0x03FC, prevKeys := 0x0001 } 0x03FC
      (by decide) (by simp [regsWith])
      [(InputCall.pressed, 0x03FE), (InputCall.held, 0x03FC),
        (InputCall.pressed, 0x03FC)]).2.2.2.1 ⟨Key.A, by decide⟩,
   (getKeysHeld_stateless { regs := regsWith REG_KEYINPUT 0x03FC, prevKeys := 0x0001 } 0x03FC
      (by decide) (by simp [regsWith])
      [(InputCall.pressed, 0x03FE), (InputCall.held, 0x03FC),
        (InputCall.pressed, 0x03FC)]).2.2.2.2⟩

/-! ## Audio::Initialize -/

/-- C11 on the code: from every state, `Audio::Initialize()` leaves 0x0B0F in
SOUNDCNT_H. Channel A is enabled to both sides (bits 8 and 9) with its timer
select (bit 10) at timer 0, but the enable bits of channel B (bits 12 and 13) are
clear and its timer select (bit 14) is clear, so channel B is not enabled and is
not put on timer 1. SOUNDCNT_X holds `SND_ENABLED` and both 3-bit volume fields of
SOUNDCNT_L (bits 0-2 and 4-6) hold 7. -/
theorem audio_initialize_mixer (s : State) :
    (Audio.Initialize s).regs REG_SOUNDCNT_H = 0x0B0F
      ∧ ((Audio.Initialize s).regs REG_SOUNDCNT_H).testBit 8 = true
      ∧ ((Audio.Initialize s).regs REG_SOUNDCNT_H).testBit 9 = true
      ∧ ((Audio.Initialize s).regs REG_SOUNDCNT_H).testBit 10 = false
      ∧ ((Audio.Initialize s).regs REG_SOUNDCNT_H).testBit 12 = false
      ∧ ((Audio.Initialize s).regs REG_SOUNDCNT_H).testBit 13 = false
      ∧ ((Audio.Initialize s).regs REG_SOUNDCNT_H).testBit 14 = false
      ∧ (Audio.Initialize s).regs REG_SOUNDCNT_X = SND_ENABLED
      ∧ (Audio.Initialize s).regs REG_SOUNDCNT_L &&& 7 = 7
      ∧ ((Audio.Initialize s).regs REG_SOUNDCNT_L >>> 4) &&& 7 = 7 := by
  have hH : (Audio.Initialize s).regs REG_SOUNDCNT_H = 0x0B0F := by
    simp [Audio.Initialize, write16, toU16, REG_SOUNDCNT_H]
  have hX : (Audio.Initialize s).regs REG_SOUNDCNT_X = SND_ENABLED := by
    simp [Audio.Initialize, write16, toU16, REG_SOUNDCNT_H, REG_SOUNDCNT_L, REG_SOUNDCNT_X,
      SND_ENABLED]
  have hL : (Audio.Initialize s).regs REG_SOUNDCNT_L = 0x77 := by
    simp [Audio.Initialize, write16, toU16, REG_SOUNDCNT_H, REG_SOUNDCNT_L]
  rw [hH, hL]
  exact ⟨rfl, by decide, by decide, by decide, by decide, by decide, by decide, hX,
    by decide, by decide⟩

/-! ## The DMA control word -/

/-- C12 fails at the buffer address 0x02000000 from the all-zero register file:
bit 25, the repeat bit, of the word left in DMA1CNT by `PlaySound` and in DMA2CNT
by `PlayMusic` is clear. -/
theorem dma_control_repeat_clear :
    ((Audio.PlaySound 0x02000000 16 (State.boot (fun _ => 0))).regs REG_DMA1CNT).testBit 25
        = false
      ∧ ((Audio.PlayMusic 0x02000000 16 (State.boot (fun _ => 0))).regs REG_DMA2CNT).testBit 25
        = false := by
  constructor <;> decide

/-- C12 as amended: the control word `PlaySound` writes last to DMA1CNT, and
`PlayMusic` to DMA2CNT, is `DMA_ENABLE | DMA_TIMING_FIFO | DMA_32` = 0x84000040: it
has `DMA_ENABLE` (bit 31), `DMA_32` (bit 26) and `DMA_TIMING_FIFO` (bit 6) and no
other bit, so the repeat bit (bit 25) is clear. -/
theorem dma_control_word (a length : Nat) (s : State) :
    (Audio.PlaySound a length s).regs REG_DMA1CNT = 0x84000040
      ∧ (Audio.PlayMusic a length s).regs REG_DMA2CNT = 0x84000040
      ∧ DMA_ENABLE ||| DMA_TIMING_FIFO ||| DMA_32 = 0x84000040
      ∧ (0x84000040 : Nat) = 2 ^ 31 + 2 ^ 26 + 2 ^ 6
      ∧ (0x84000040 : Nat) &&& DMA_ENABLE = DMA_ENABLE
      ∧ (0x84000040 : Nat) &&& DMA_32 = DMA_32
      ∧ (0x84000040 : Nat) &&& DMA_TIMING_FIFO = DMA_TIMING_FIFO
      ∧ (0x84000040 : Nat) &&& 0x02000000 = 0 := by
  refine ⟨?_, ?_, by decide, by decide, by decide, by decide, by decide, by decide⟩ <;>
    simp [Audio.PlaySound, Audio.PlaySoundOn, Audio.PlayMusic, Audio.PlayMusicOn, write32, write16, toU32, REG_DMA1CNT, REG_DMA2CNT,
      REG_TM0CNT_L, REG_TM0CNT_H, REG_TM1CNT_L, REG_TM1CNT_H, DMA_ENABLE, DMA_TIMING_FIFO,
      DMA_32]

/-! ## The lower-level System primitives -/

/-- C13: `RegisterRamReset(flags)` leaves the whole state as it was;
`irqEnable(flags)`, for 16-bit `flags`, leaves `old IE OR flags` in IE, so every
interrupt enabled before is still enabled, and changes no other register;
`irqInit()` leaves 1 in IME, 0 in IE and 0 in IF and changes no other register.
None of them changes the key snapshot. -/
theorem system_primitives_frame (flags : Nat) (hf : flags < 2 ^ 16) (s : State) :
    System.RegisterRamReset flags s = s
      ∧ (System.irqEnable flags s).regs REG_IE = read16 s REG_IE ||| flags
      ∧ (∀ i, (read16 s REG_IE).testBit i = true →
          ((System.irqEnable flags s).regs REG_IE).testBit i = true)
      ∧ (∀ a, a ≠ REG_IE → (System.irqEnable flags s).regs a = s.regs a)
      ∧ (System.irqEnable flags s).prevKeys = s.prevKeys
      ∧ (System.irqInit s).regs REG_IME = 1
      ∧ (System.irqInit s).regs REG_IE = 0
      ∧ (System.irqInit s).regs REG_IF = 0
      ∧ (∀ a, a ≠ REG_IME → a ≠ REG_IE → a ≠ REG_IF → (System.irqInit s).regs a = s.regs a)
      ∧ (System.irqInit s).prevKeys = s.prevKeys := by
  have hIE : (System.irqEnable flags s).regs REG_IE = read16 s REG_IE ||| flags := by
    simp only [System.irqEnable, write16, if_true]
    exact toU16_of_lt (Nat.or_lt_two_pow (read16_lt s _) hf)
  refine ⟨rfl, hIE, ?_, ?_, rfl, ?_, ?_, ?_, ?_, rfl⟩
  · intro i hi
    rw [hIE, Nat.testBit_or, hi]
    rfl
  · intro a ha
    simp [System.irqEnable, write16, ha]
  · simp [System.irqInit, write16, toU16]
  · simp [System.irqInit, write16, toU16, REG_IE, REG_IF, REG_IME]
  · simp [System.irqInit, write16, toU16, REG_IE, REG_IF, REG_IME]
  · intro a h1 h2 h3
    simp [System.irqInit, write16, h1, h2, h3]

/-- Witness of C13: `irqEnable(0x0004)` on a register file with IE = 0x0001. -/
theorem system_primitives_frame_witness :
    (System.irqEnable 0x0004 { regs := regsWith REG_IE 0x0001, prevKeys := 0 }).regs REG_IE
        = read16 { regs := regsWith REG_IE 0x0001, prevKeys := 0 } REG_IE ||| 0x0004
      ∧ ((System.irqEnable 0x0004 { regs := regsWith REG_IE 0x0001, prevKeys := 0 }).regs
          REG_IE).testBit 0 = true
      ∧ (System.irqEnable 0x0004 { regs := regsWith REG_IE 0x0001, prevKeys := 0 }).regs
          REG_DISPCNT
        = regsWith REG_IE 0x0001 REG_DISPCNT
      ∧ (System.irqInit { regs := regsWith REG_IE 0x0001, prevKeys := 0 }).regs REG_KEYINPUT
        = regsWith REG_IE 0x0001 REG_KEYINPUT :=
  ⟨(system_primitives_frame 0x0004 (by decide)
      { regs := regsWith REG_IE 0x0001, prevKeys := 0 }).2.1,
   (system_primitives_frame 0x0004 (by decide)
      { regs := regsWith REG_IE 0x0001, prevKeys := 0 }).2.2.1 0 (by decide),
   (system_primitives_frame 0x0004 (by decide)
      { regs := regsWith REG_IE 0x0001, prevKeys := 0 }).2.2.2.1 REG_DISPCNT (by decide),
   (system_primitives_frame 0x0004 (by decide)
      { regs := regsWith REG_IE 0x0001, prevKeys := 0 }).2.2.2.2.2.2.2.2.1 REG_KEYINPUT
      (by decide) (by decide) (by decide)⟩

/-! ## Flag constants -/

/-- C14: the flag constants that are ORed into one register value do not overlap
(their AND is 0) and so their OR is their sum: each of `MODE_0`, `MODE_1`, `MODE_2`
against `BG0_ENABLE` and `BG1_ENABLE`, and `BG0_ENABLE` against `BG1_ENABLE`;
`DMA_ENABLE`, `DMA_TIMING_FIFO` and `DMA_32`; `TIMER_START` and `TIMER_FREQ_1024`. -/
theorem flags_disjoint :
    (MODE_0 &&& BG0_ENABLE = 0 ∧ MODE_0 ||| BG0_ENABLE = MODE_0 + BG0_ENABLE)
      ∧ (MODE_0 &&& BG1_ENABLE = 0 ∧ MODE_0 ||| BG1_ENABLE = MODE_0 + BG1_ENABLE)
      ∧ (MODE_1 &&& BG0_ENABLE = 0 ∧ MODE_1 ||| BG0_ENABLE = MODE_1 + BG0_ENABLE)
      ∧ (MODE_1 &&& BG1_ENABLE = 0 ∧ MODE_1 ||| BG1_ENABLE = MODE_1 + BG1_ENABLE)
      ∧ (MODE_2 &&& BG0_ENABLE = 0 ∧ MODE_2 ||| BG0_ENABLE = MODE_2 + BG0_ENABLE)
      ∧ (MODE_2 &&& BG1_ENABLE = 0 ∧ MODE_2 ||| BG1_ENABLE = MODE_2 + BG1_ENABLE)
      ∧ (BG0_ENABLE &&& BG1_ENABLE = 0 ∧ BG0_ENABLE ||| BG1_ENABLE = BG0_ENABLE + BG1_ENABLE)
      ∧ (DMA_ENABLE &&& DMA_TIMING_FIFO = 0
        ∧ DMA_ENABLE ||| DMA_TIMING_FIFO = DMA_ENABLE + DMA_TIMING_FIFO)
      ∧ (DMA_ENABLE &&& DMA_32 = 0 ∧ DMA_ENABLE ||| DMA_32 = DMA_ENABLE + DMA_32)
      ∧ (DMA_TIMING_FIFO &&& DMA_32 = 0
        ∧ DMA_TIMING_FIFO ||| DMA_32 = DMA_TIMING_FIFO + DMA_32)
      ∧ DMA_ENABLE ||| DMA_TIMING_FIFO ||| DMA_32 = DMA_ENABLE + DMA_TIMING_FIFO + DMA_32
      ∧ (TIMER_START &&& TIMER_FREQ_1024 = 0
        ∧ TIMER_START ||| TIMER_FREQ_1024 = TIMER_START + TIMER_FREQ_1024) := by
  decide

/-! ## Polling sequences -/

/-- For a 16-bit register value the `u16` the code computes as `~r & KEY_MASK` is
the 16-bit `NOT r AND KEY_MASK`. -/
theorem currentKeys_eq {r : Nat} (hr : r < 2 ^ 16) :
    toU16 (bitNot r &&& KEY_MASK) = not16 r &&& KEY_MASK := by
  apply Nat.eq_of_testBit_eq
  intro i
  rw [testBit_currentKeys hr, Nat.testBit_and, testBit_not16 hr, testBit_KEY_MASK]
  by_cases h10 : i < 10
  · have h16 : i < 16 := by omega
    simp [h10, h16]
  · simp [h10]

theorem read16_setKeyInput (r : Nat) (s : State) :
    read16 (setKeyInput r s) REG_KEYINPUT = toU16 r := by
  simp [read16, setKeyInput]

/-- A value all of whose set bits are set in `y` is a bitwise subset of `y`. -/
theorem and_eq_left_of_testBit {x y : Nat}
    (h : ∀ i, x.testBit i = true → y.testBit i = true) : x &&& y = x := by
  apply Nat.eq_of_testBit_eq
  intro i
  rw [Nat.testBit_and]
  cases hx : x.testBit i
  · rfl
  · rw [h i hx]
    rfl

/-- The first poll of a sequence: the value returned and the snapshot left. -/
theorem pollTrace_zero (r : Nat) (rs : List Nat) (s : State) (hp : s.prevKeys < 2 ^ 16)
    (hr : r < 2 ^ 16) :
    ∃ res, (pollTrace (r :: rs) s)[0]? = some (res, not16 r &&& KEY_MASK)
      ∧ ∀ j, res.testBit j = (decide (j < 10) && !r.testBit j && !s.prevKeys.testBit j) := by
  refine ⟨(Input.GetKeysPressed (setKeyInput r s)).1, ?_, ?_⟩
  · have hsnap : (Input.GetKeysPressed (setKeyInput r s)).2.prevKeys
        = not16 r &&& KEY_MASK := by
      show toU16 (bitNot (read16 (setKeyInput r s) REG_KEYINPUT) &&& KEY_MASK) = _
      rw [read16_setKeyInput, toU16_of_lt hr, currentKeys_eq hr]
    simp [pollTrace, hsnap]
  · intro j
    have hp1 : (setKeyInput r s).prevKeys < 2 ^ 16 := hp
    rw [testBit_pressed _ hp1 j, read16_setKeyInput, toU16_of_lt hr]
    rfl

/-- A later poll of a sequence: the snapshot it meets is the one the poll before
left, so its result has the key bits that are held now and were not held at the
reading before. -/
theorem pollTrace_succ (rs : List Nat) (s : State) (h16 : ∀ r ∈ rs, r < 2 ^ 16)
    (i q r : Nat) (hq : rs[i]? = some q) (hr : rs[i + 1]? = some r) :
    ∃ res, (pollTrace rs s)[i + 1]? = some (res, not16 r &&& KEY_MASK)
      ∧ ∀ j, res.testBit j = (decide (j < 10) && !r.testBit j && q.testBit j) := by
  induction rs generalizing s i with
  | nil => simp at hq
  | cons a rest ih =>
    have ha : a < 2 ^ 16 := h16 a (List.mem_cons_self a rest)
    have hrest : ∀ x ∈ rest, x < 2 ^ 16 := fun x hx => h16 x (List.mem_cons_of_mem a hx)
    cases i with
    | zero =>
      have haq : a = q := by simpa using hq
      have hr1 : rest[0]? = some r := by simpa using hr
      cases rest with
      | nil => simp at hr1
      | cons b rest1 =>
        have hbr : b = r := by simpa using hr1
        subst hbr
        subst haq
        have hb : b < 2 ^ 16 := hrest b (List.mem_cons_self b rest1)
        have hp1 : (Input.GetKeysPressed (setKeyInput a s)).2.prevKeys < 2 ^ 16 := toU16_lt _
        obtain ⟨res, hres, hbits⟩ :=
          pollTrace_zero b rest1 (Input.GetKeysPressed (setKeyInput a s)).2 hp1 hb
        refine ⟨res, ?_, ?_⟩
        · simpa [pollTrace] using hres
        · intro j
          rw [hbits j]
          have hprev : (Input.GetKeysPressed (setKeyInput a s)).2.prevKeys
              = toU16 (bitNot (read16 (setKeyInput a s) REG_KEYINPUT) &&& KEY_MASK) := rfl
          rw [hprev, read16_setKeyInput, toU16_of_lt ha, testBit_currentKeys ha]
          cases decide (j < 10) <;> cases b.testBit j <;> cases a.testBit j <;> rfl
    | succ i1 =>
      have hq1 : rest[i1]? = some q := by simpa using hq
      have hr1 : rest[i1 + 1]? = some r := by simpa using hr
      obtain ⟨res, hres, hbits⟩ :=
        ih (Input.GetKeysPressed (setKeyInput a s)).2 hrest i1 hq1 hr1
      exact ⟨res, by simpa [pollTrace] using hres, hbits⟩

/-- C15: a finite sequence of 16-bit key-register readings `rs` is polled once
each by `GetKeysPressed()` from the zero-initialised snapshot. For poll `i`, of
reading `r`: the snapshot after it is `NOT r AND KEY_MASK`; the result has only
key bits; the bit of a key is in the result exactly when the key is held at
reading `i` (its register bit is 0) and `i = 0` or it was not held at reading
`i - 1`. So a key held at readings `i - 1` and `i` is not reported at poll `i`,
and a key held at the first reading is reported by the first poll. -/
theorem poll_sequence (rs : List Nat) (regs : Nat → Nat) (h16 : ∀ r ∈ rs, r < 2 ^ 16)
    (i r : Nat) (hi : rs[i]? = some r) :
    ∃ res, (pollTrace rs (State.boot regs))[i]? = some (res, not16 r &&& KEY_MASK)
      ∧ res &&& KEY_MASK = res
      ∧ (∀ k : Key, res.testBit k.idx = true ↔
          (r.testBit k.idx = false
            ∧ (i = 0 ∨ ∃ q, rs[i - 1]? = some q ∧ q.testBit k.idx = true)))
      ∧ (∀ k : Key, ∀ q, 0 < i → rs[i - 1]? = some q → q.testBit k.idx = false →
          r.testBit k.idx = false → res.testBit k.idx = false)
      ∧ (∀ k : Key, i = 0 → r.testBit k.idx = false → res.testBit k.idx = true) := by
  cases i with
  | zero =>
    cases rs with
    | nil => simp at hi
    | cons a rest =>
      have har : a = r := by simpa using hi
      subst har
      have ha : a < 2 ^ 16 := h16 a (List.mem_cons_self a rest)
      obtain ⟨res, hres, hbits⟩ :=
        pollTrace_zero a rest (State.boot regs) (by show (0 : Nat) < 2 ^ 16; decide) ha
      have hbits1 : ∀ j, res.testBit j = (decide (j < 10) && !a.testBit j) := by
        intro j
        rw [hbits j]
        show (decide (j < 10) && !a.testBit j && !(0 : Nat).testBit j) = _
        rw [Nat.zero_testBit]
        simp
      have hkey : ∀ k : Key, a.testBit k.idx = false → res.testBit k.idx = true := by
        intro k hk
        rw [hbits1, hk]
        simp [k.idx_lt]
      refine ⟨res, hres, ?_, ?_, ?_, fun k _ hk => hkey k hk⟩
      · apply and_eq_left_of_testBit
        intro j hj
        rw [hbits1] at hj
        rw [testBit_KEY_MASK]
        simp only [Bool.and_eq_true] at hj
        exact hj.1
      · intro k
        constructor
        · intro hk
          rw [hbits1] at hk
          simp only [Bool.and_eq_true, Bool.not_eq_true_eq_eq_false] at hk
          exact ⟨hk.2, Or.inl rfl⟩
        · intro hk
          exact hkey k hk.1
      · intro k q h0
        exact absurd h0 (Nat.lt_irrefl 0)
  | succ i1 =>
    have hlen : i1 + 1 < rs.length := (List.getElem?_eq_some.1 hi).1
    have hq : rs[i1]? = some (rs[i1]) := List.getElem?_eq_getElem (by omega)
    obtain ⟨res, hres, hbits⟩ := pollTrace_succ rs (State.boot regs) h16 i1 _ r hq hi
    refine ⟨res, hres, ?_, ?_, ?_, ?_⟩
    · apply and_eq_left_of_testBit
      intro j hj
      rw [hbits] at hj
      rw [testBit_KEY_MASK]
      simp only [Bool.and_eq_true] at hj
      exact hj.1.1
    · intro k
      rw [hbits]
      simp only [Bool.and_eq_true, decide_eq_true_eq, Bool.not_eq_true_eq_eq_false,
        Nat.add_sub_cancel]
      constructor
      · rintro ⟨⟨_, h2⟩, h3⟩
        exact ⟨h2, Or.inr ⟨_, hq, h3⟩⟩
      · rintro ⟨h2, h3⟩
        rcases h3 with h3 | ⟨q, hq1, h3⟩
        · exact absurd h3 (by omega)
        · rw [hq] at hq1
          have hqq : rs[i1] = q := Option.some.inj hq1
          exact ⟨⟨k.idx_lt, h2⟩, hqq ▸ h3⟩
    · intro k q _ hq1 hqk _
      rw [Nat.add_sub_cancel, hq] at hq1
      have hqq : rs[i1] = q := Option.some.inj hq1
      rw [hbits, hqq, hqk]
      simp
    · intro k h0
      exact absurd h0 (by omega)

/-- Witness of C15: A is held at readings 0 and 1, B from reading 1, nothing at
reading 2; poll 1 reports B and not A, and leaves the snapshot of reading 1. -/
theorem poll_sequence_witness :
    ((pollTrace [0x03FE, 0x03FC, 0x03FF] (State.boot (regsWith REG_KEYINPUT 0x03FF)))[1]?).map
        (fun out => (out.1.testBit Key.B.idx, out.1.testBit Key.A.idx, out.2))
      = some (true, false, not16 0x03FC &&& KEY_MASK) := by
  obtain ⟨res, h1, _, h3, h4, _⟩ :=
    poll_sequence [0x03FE, 0x03FC, 0x03FF] (regsWith REG_KEYINPUT 0x03FF) (by decide) 1 0x03FC
      (by decide)
  have hB : res.testBit Key.B.idx = true :=
    (h3 Key.B).2 ⟨by decide, Or.inr ⟨0x03FE, by decide, by decide⟩⟩
  have hA : res.testBit Key.A.idx = false :=
    h4 Key.A 0x03FE (by decide) (by decide) (by decide) (by decide)
  rw [h1, Option.map_some', hB, hA]

/-! ## Order of the stores of PlaySound and PlayMusic -/

/-- C16: the stores `PlaySound` performs (and likewise `PlayMusic`), recorded
from its body in the order it performs them, are: DMAxCNT := 0 (channel stopped)
first, then the source address, then the destination address, then the enabling
control word, then TMxCNT_L := 0 (timer reset), then
TMxCNT_H := `TIMER_START | TIMER_FREQ_1024` (timer started). Replayed on the
register file they give the state the function leaves. DMAxCNT holds 0 after each
of the first three stores, so both addresses are stored while the channel is
stopped; after the fourth it holds the control word, which has `DMA_ENABLE`, and
the timer control register is still untouched then. No store to the source or
destination register comes while DMAxCNT holds a value with `DMA_ENABLE` stored by
this call. -/
theorem play_write_order (a length : Nat) (s : State) :
    Audio.PlaySoundWrites a length
        = [{ addr := REG_DMA1CNT, val := 0, wide := true },
           { addr := REG_DMA1SAD, val := toU32 a, wide := true },
           { addr := REG_DMA1DAD, val := 0x40000A0, wide := true },
           { addr := REG_DMA1CNT, val := DMA_ENABLE ||| DMA_TIMING_FIFO ||| DMA_32,
             wide := true },
           { addr := REG_TM0CNT_L, val := 0, wide := false },
           { addr := REG_TM0CNT_H, val := TIMER_START ||| TIMER_FREQ_1024, wide := false }]
      ∧ replay (Audio.PlaySoundWrites a length) s = Audio.PlaySound a length s
      ∧ (replay ((Audio.PlaySoundWrites a length).take 1) s).regs REG_DMA1CNT = 0
      ∧ (replay ((Audio.PlaySoundWrites a length).take 2) s).regs REG_DMA1CNT = 0
      ∧ (replay ((Audio.PlaySoundWrites a length).take 3) s).regs REG_DMA1CNT = 0
      ∧ (replay ((Audio.PlaySoundWrites a length).take 3) s).regs REG_DMA1SAD = toU32 a
      ∧ (replay ((Audio.PlaySoundWrites a length).take 3) s).regs REG_DMA1DAD = 0x40000A0
      ∧ (replay ((Audio.PlaySoundWrites a length).take 4) s).regs REG_DMA1CNT
        = DMA_ENABLE ||| DMA_TIMING_FIFO ||| DMA_32
      ∧ (replay ((Audio.PlaySoundWrites a length).take 4) s).regs REG_TM0CNT_H
        = s.regs REG_TM0CNT_H
      ∧ addressesWhileStopped REG_DMA1CNT REG_DMA1SAD REG_DMA1DAD
          (Audio.PlaySoundWrites a length) false = true
      ∧ Audio.PlayMusicWrites a length
        = [{ addr := REG_DMA2CNT, val := 0, wide := true },
           { addr := REG_DMA2SAD, val := toU32 a, wide := true },
           { addr := REG_DMA2DAD, val := 0x40000A4, wide := true },
           { addr := REG_DMA2CNT, val := DMA_ENABLE ||| DMA_TIMING_FIFO ||| DMA_32,
             wide := true },
           { addr := REG_TM1CNT_L, val := 0, wide := false },
           { addr := REG_TM1CNT_H, val := TIMER_START ||| TIMER_FREQ_1024, wide := false }]
      ∧ replay (Audio.PlayMusicWrites a length) s = Audio.PlayMusic a length s
      ∧ (replay ((Audio.PlayMusicWrites a length).take 1) s).regs REG_DMA2CNT = 0
      ∧ (replay ((Audio.PlayMusicWrites a length).take 2) s).regs REG_DMA2CNT = 0
      ∧ (replay ((Audio.PlayMusicWrites a length).take 3) s).regs REG_DMA2CNT = 0
      ∧ (replay ((Audio.PlayMusicWrites a length).take 3) s).regs REG_DMA2SAD = toU32 a
      ∧ (replay ((Audio.PlayMusicWrites a length).take 3) s).regs REG_DMA2DAD = 0x40000A4
      ∧ (replay ((Audio.PlayMusicWrites a length).take 4) s).regs REG_DMA2CNT
        = DMA_ENABLE ||| DMA_TIMING_FIFO ||| DMA_32
      ∧ (replay ((Audio.PlayMusicWrites a length).take 4) s).regs REG_TM1CNT_H
        = s.regs REG_TM1CNT_H
      ∧ addressesWhileStopped REG_DMA2CNT REG_DMA2SAD REG_DMA2DAD
          (Audio.PlayMusicWrites a length) false = true
      ∧ (DMA_ENABLE ||| DMA_TIMING_FIFO ||| DMA_32) &&& DMA_ENABLE = DMA_ENABLE
      ∧ 0 &&& DMA_ENABLE = 0 := by
  have hS : Audio.PlaySoundWrites a length
      = [{ addr := REG_DMA1CNT, val := 0, wide := true },
         { addr := REG_DMA1SAD, val := toU32 a, wide := true },
         { addr := REG_DMA1DAD, val := 0x40000A0, wide := true },
         { addr := REG_DMA1CNT, val := DMA_ENABLE ||| DMA_TIMING_FIFO ||| DMA_32,
           wide := true },
         { addr := REG_TM0CNT_L, val := 0, wide := false },
         { addr := REG_TM0CNT_H, val := TIMER_START ||| TIMER_FREQ_1024, wide := false }] :=
    rfl
  have hM : Audio.PlayMusicWrites a length
      = [{ addr := REG_DMA2CNT, val := 0, wide := true },
         { addr := REG_DMA2SAD, val := toU32 a, wide := true },
         { addr := REG_DMA2DAD, val := 0x40000A4, wide := true },
         { addr := REG_DMA2CNT, val := DMA_ENABLE ||| DMA_TIMING_FIFO ||| DMA_32,
           wide := true },
         { addr := REG_TM1CNT_L, val := 0, wide := false },
         { addr := REG_TM1CNT_H, val := TIMER_START ||| TIMER_FREQ_1024, wide := false }] :=
    rfl
  have hidem : toU32 (toU32 a) = toU32 a := Nat.mod_mod _ _
  refine ⟨hS, rfl, ?_, ?_, ?_, ?_, ?_, ?_, ?_, ?_, hM, rfl, ?_, ?_, ?_, ?_, ?_, ?_, ?_, ?_,
    by decide, by decide⟩
  · rw [hS]; simp [replay, RegWrite.run, write32, toU32]
  · rw [hS]; simp [replay, RegWrite.run, write32, toU32, REG_DMA1CNT, REG_DMA1SAD]
  · rw [hS]; simp [replay, RegWrite.run, write32, toU32, REG_DMA1CNT, REG_DMA1SAD, REG_DMA1DAD]
  · rw [hS]
    simp only [List.take, replay, RegWrite.run, write32, if_true]
    simp [hidem, REG_DMA1SAD, REG_DMA1DAD]
  · rw [hS]; simp [replay, RegWrite.run, write32, toU32, REG_DMA1CNT, REG_DMA1SAD, REG_DMA1DAD]
  · rw [hS]
    simp [replay, RegWrite.run, write32, toU32, REG_DMA1CNT, REG_DMA1SAD, REG_DMA1DAD,
      DMA_ENABLE, DMA_TIMING_FIFO, DMA_32]
  · rw [hS]
    simp [replay, RegWrite.run, write32, REG_DMA1CNT, REG_DMA1SAD, REG_DMA1DAD, REG_TM0CNT_H]
  · rw [hS]
    simp [addressesWhileStopped, REG_DMA1CNT, REG_DMA1SAD, REG_DMA1DAD, REG_TM0CNT_L,
      REG_TM0CNT_H]
    decide
  · rw [hM]; simp [replay, RegWrite.run, write32, toU32]
  · rw [hM]; simp [replay, RegWrite.run, write32, toU32, REG_DMA2CNT, REG_DMA2SAD]
  · rw [hM]; simp [replay, RegWrite.run, write32, toU32, REG_DMA2CNT, REG_DMA2SAD, REG_DMA2DAD]
  · rw [hM]
    simp only [List.take, replay, RegWrite.run, write32, if_true]
    simp [hidem, REG_DMA2SAD, REG_DMA2DAD]
  · rw [hM]; simp [replay, RegWrite.run, write32, toU32, REG_DMA2CNT, REG_DMA2SAD, REG_DMA2DAD]
  · rw [hM]
    simp [replay, RegWrite.run, write32, toU32, REG_DMA2CNT, REG_DMA2SAD, REG_DMA2DAD,
      DMA_ENABLE, DMA_TIMING_FIFO, DMA_32]
  · rw [hM]
    simp [replay, RegWrite.run, write32, REG_DMA2CNT, REG_DMA2SAD, REG_DMA2DAD, REG_TM1CNT_H]
  · rw [hM]
    simp [addressesWhileStopped, REG_DMA2CNT, REG_DMA2SAD, REG_DMA2DAD, REG_TM1CNT_L,
      REG_TM1CNT_H]
    decide

/-! ## Independence of the two audio channels -/

/-- C17: `PlaySound` changes only DMA1SAD, DMA1DAD, DMA1CNT, TM0CNT_L and
TM0CNT_H, `PlayMusic` only DMA2SAD, DMA2DAD, DMA2CNT, TM1CNT_L and TM1CNT_H,
neither changes the key snapshot, the two register sets are disjoint, and for all
buffers `a` and `b` the two orders of the two calls end in the same state. -/
theorem play_channels_independent (a b la lb : Nat) (s : State) :
    (∀ addr, addr ∉ playSoundRegs → (Audio.PlaySound a la s).regs addr = s.regs addr)
      ∧ (Audio.PlaySound a la s).prevKeys = s.prevKeys
      ∧ (∀ addr, addr ∉ playMusicRegs → (Audio.PlayMusic b lb s).regs addr = s.regs addr)
      ∧ (Audio.PlayMusic b lb s).prevKeys = s.prevKeys
      ∧ (∀ addr, addr ∈ playSoundRegs → addr ∉ playMusicRegs)
      ∧ Audio.PlayMusic b lb (Audio.PlaySound a la s)
        = Audio.PlaySound a la (Audio.PlayMusic b lb s) := by
  refine ⟨?_, rfl, ?_, rfl, by decide, ?_⟩
  · intro addr h
    simp only [playSoundRegs, List.mem_cons, List.mem_singleton, not_or, List.mem_nil_iff,
      or_false] at h
    obtain ⟨h1, h2, h3, h4, h5⟩ := h
    simp [Audio.PlaySound, Audio.PlaySoundOn, write32, write16, h1, h2, h3, h4, h5]
  · intro addr h
    simp only [playMusicRegs, List.mem_cons, List.mem_singleton, not_or, List.mem_nil_iff,
      or_false] at h
    obtain ⟨h1, h2, h3, h4, h5⟩ := h
    simp [Audio.PlayMusic, Audio.PlayMusicOn, write32, write16, h1, h2, h3, h4, h5]
  · simp only [Audio.PlaySound, Audio.PlaySoundOn, Audio.PlayMusic, Audio.PlayMusicOn, write32, write16]
    congr 1
    funext addr
    simp only [REG_DMA1SAD, REG_DMA1DAD, REG_DMA1CNT, REG_TM0CNT_L, REG_TM0CNT_H, REG_DMA2SAD,
      REG_DMA2DAD, REG_DMA2CNT, REG_TM1CNT_L, REG_TM1CNT_H]
    by_cases h1 : addr = 0x40000C4
    · subst h1; simp
    by_cases h2 : addr = 0x40000BC
    · subst h2; simp
    by_cases h3 : addr = 0x40000C0
    · subst h3; simp
    by_cases h4 : addr = 0x4000100
    · subst h4; simp
    by_cases h5 : addr = 0x4000102
    · subst h5; simp
    by_cases h6 : addr = 0x40000D0
    · subst h6; simp
    by_cases h7 : addr = 0x40000C8
    · subst h7; simp
    by_cases h8 : addr = 0x40000CC
    · subst h8; simp
    by_cases h9 : addr = 0x4000104
    · subst h9; simp
    by_cases h10 : addr = 0x4000106
    · subst h10; simp
    simp [h1, h2, h3, h4, h5, h6, h7, h8, h9, h10]

/-- Witness of C17: the key-input register is outside both register sets and is
left alone by both calls. -/
theorem play_channels_independent_witness :
    (Audio.PlaySound 0x02000000 16 (State.boot (regsWith REG_KEYINPUT 0x03FF))).regs
        REG_KEYINPUT = regsWith REG_KEYINPUT 0x03FF REG_KEYINPUT
      ∧ (Audio.PlayMusic 0x02001000 32 (State.boot (regsWith REG_KEYINPUT 0x03FF))).regs
        REG_DMA1CNT = regsWith REG_KEYINPUT 0x03FF REG_DMA1CNT
      ∧ REG_DMA1CNT ∉ playMusicRegs :=
  ⟨(play_channels_independent 0x02000000 0x02001000 16 32
      (State.boot (regsWith REG_KEYINPUT 0x03FF))).1 REG_KEYINPUT (by decide),
   (play_channels_independent 0x02000000 0x02001000 16 32
      (State.boot (regsWith REG_KEYINPUT 0x03FF))).2.2.1 REG_DMA1CNT (by decide),
   (play_channels_independent 0x02000000 0x02001000 16 32
      (State.boot (regsWith REG_KEYINPUT 0x03FF))).2.2.2.2.1 REG_DMA1CNT (by decide)⟩

/-! ## Key results stay within the key mask -/

/-- What is stored in a `u16` after an AND with `KEY_MASK` lies within `KEY_MASK`. -/
theorem masked_within (x : Nat) :
    toU16 (x &&& KEY_MASK) &&& KEY_MASK = toU16 (x &&& KEY_MASK) := by
  apply and_eq_left_of_testBit
  intro i hi
  rw [testBit_toU16, Nat.testBit_and] at hi
  simp only [Bool.and_eq_true] at hi
  exact hi.2.2

/-- The snapshot stays within `KEY_MASK` along every sequence of `Input` calls. -/
theorem stateAfterCalls_within (calls : List (InputCall × Nat)) (s : State)
    (h : s.prevKeys &&& KEY_MASK = s.prevKeys) :
    (stateAfterCalls calls s).prevKeys &&& KEY_MASK = (stateAfterCalls calls s).prevKeys := by
  induction calls generalizing s with
  | nil => exact h
  | cons c rest ih =>
    obtain ⟨kind, r⟩ := c
    cases kind with
    | pressed =>
      simp only [stateAfterCalls]
      apply ih
      exact masked_within _
    | held =>
      simp only [stateAfterCalls]
      apply ih
      exact h

/-- C18: for every state (any key-register value, upper six bits arbitrary, and
any snapshot) the result of `GetKeysPressed()` is a bitwise subset of the result
of `GetKeysHeld()` for the same reading, which is a bitwise subset of `KEY_MASK`;
`KEY_MASK` is the OR of the ten key constants, each a single bit and no two equal;
so both results have key bits only, and the snapshot is within `KEY_MASK` after
every call, from the zero-initialised snapshot along every sequence of calls. -/
theorem keys_within_mask (s : State) (regs : Nat → Nat) (calls : List (InputCall × Nat)) :
    (Input.GetKeysPressed s).1 &&& (Input.GetKeysHeld s).1 = (Input.GetKeysPressed s).1
      ∧ (Input.GetKeysHeld s).1 &&& KEY_MASK = (Input.GetKeysHeld s).1
      ∧ (Input.GetKeysPressed s).1 &&& KEY_MASK = (Input.GetKeysPressed s).1
      ∧ KEY_MASK = KEY_A ||| KEY_B ||| KEY_SELECT ||| KEY_START ||| KEY_RIGHT ||| KEY_LEFT
          ||| KEY_UP ||| KEY_DOWN ||| KEY_R ||| KEY_L
      ∧ [KEY_A, KEY_B, KEY_SELECT, KEY_START, KEY_RIGHT, KEY_LEFT, KEY_UP, KEY_DOWN, KEY_R,
          KEY_L] = (List.range 10).map (fun i => 2 ^ i)
      ∧ [KEY_A, KEY_B, KEY_SELECT, KEY_START, KEY_RIGHT, KEY_LEFT, KEY_UP, KEY_DOWN, KEY_R,
          KEY_L].Nodup
      ∧ (Input.GetKeysPressed s).2.prevKeys &&& KEY_MASK = (Input.GetKeysPressed s).2.prevKeys
      ∧ (Input.GetKeysHeld s).2.prevKeys = s.prevKeys
      ∧ (stateAfterCalls calls (State.boot regs)).prevKeys &&& KEY_MASK
        = (stateAfterCalls calls (State.boot regs)).prevKeys := by
  have hsub : (Input.GetKeysPressed s).1 &&& (Input.GetKeysHeld s).1
      = (Input.GetKeysPressed s).1 := by
    apply and_eq_left_of_testBit
    intro i hi
    have hi1 : (toU16 (toU16 (bitNot (read16 s REG_KEYINPUT) &&& KEY_MASK)
        &&& bitNot s.prevKeys)).testBit i = true := hi
    rw [testBit_toU16, Nat.testBit_and] at hi1
    simp only [Bool.and_eq_true] at hi1
    exact hi1.2.1
  have hheld : (Input.GetKeysHeld s).1 &&& KEY_MASK = (Input.GetKeysHeld s).1 :=
    masked_within _
  refine ⟨hsub, hheld, ?_, by decide, by decide, by decide, masked_within _, rfl,
    stateAfterCalls_within calls (State.boot regs) (Nat.zero_and KEY_MASK)⟩
  apply and_eq_left_of_testBit
  intro i hi
  have h1 : ((Input.GetKeysPressed s).1 &&& (Input.GetKeysHeld s).1).testBit i = true := by
    rw [hsub]
    exact hi
  rw [Nat.testBit_and, Bool.and_eq_true] at h1
  have h2 : ((Input.GetKeysHeld s).1 &&& KEY_MASK).testBit i = true := by
    rw [hheld]
    exact h1.2
  rw [Nat.testBit_and, Bool.and_eq_true] at h2
  exact h2.2

/-! ## The setup and the loop of main -/

/-- The spin loop is left when one of the readings its fuel pays for has the
VBlank bit set. -/
theorem spinVBlank_isSome (reads : Nat → Nat) (fuel i : Nat)
    (h : ∃ j, i ≤ j ∧ j < i + fuel ∧ (reads j).testBit 0 = true) :
    ∃ k, System.spinVBlank reads fuel i = some k := by
  induction fuel generalizing i with
  | zero =>
    obtain ⟨j, h1, h2, _⟩ := h
    exact absurd h2 (by omega)
  | succ fuel ih =>
    rw [System.spinVBlank]
    by_cases hc : toU16 (reads i) &&& IRQ_VBLANK = 0
    · rw [if_pos hc]
      obtain ⟨j, h1, h2, h3⟩ := h
      have hij : j ≠ i := by
        intro hji
        rw [hji, (vblank_test (reads i)).1 hc] at h3
        exact absurd h3 (by decide)
      exact ih (i + 1) ⟨j, by omega, by omega, h3⟩
    · rw [if_neg hc]
      exact ⟨i, rfl⟩

/-- What `WaitForVBlank` against a stream of readings returns is the state it was
called in with `IRQ_VBLANK` stored in IF. -/
theorem waitForVBlankOn_some (reads : Nat → Nat) (fuel : Nat) (t : State) (res : Nat × State)
    (h : System.WaitForVBlankOn reads fuel t = some res) :
    res.2 = write16 t REG_IF IRQ_VBLANK := by
  unfold System.WaitForVBlankOn at h
  cases hs : System.spinVBlank reads fuel 0 with
  | none => simp [hs] at h
  | some i =>
    simp only [hs, Option.some.injEq] at h
    rw [← h]

/-- One iteration of the loop of `main` stores to neither DISPCNT nor IE. -/
theorem mainIteration_frame (key : Nat) (reads : Nat → Nat) (fuel : Nat) (s s1 : State)
    (h : mainIteration key reads fuel s = some s1) :
    s1.regs REG_DISPCNT = s.regs REG_DISPCNT ∧ s1.regs REG_IE = s.regs REG_IE := by
  unfold mainIteration at h
  simp only [ite_self] at h
  cases hw : System.WaitForVBlankOn reads fuel (Input.GetKeysPressed (setKeyInput key s)).2 with
  | none => simp [hw] at h
  | some res =>
    simp only [hw, Option.some.injEq] at h
    have hres := waitForVBlankOn_some _ _ _ _ hw
    rw [← h, hres]
    constructor <;>
      simp [write16, Input.GetKeysPressed, setKeyInput, REG_DISPCNT, REG_IE, REG_IF,
        REG_KEYINPUT]

/-- DISPCNT and IE are the same at the start of every iteration of the loop. -/
theorem mainLoop_frame (hw : Nat → Nat × (Nat → Nat)) (fuel n : Nat) (s sn : State)
    (h : mainLoop hw fuel n s = some sn) :
    sn.regs REG_DISPCNT = s.regs REG_DISPCNT ∧ sn.regs REG_IE = s.regs REG_IE := by
  induction n generalizing sn with
  | zero =>
    simp only [mainLoop, Option.some.injEq] at h
    rw [← h]
    exact ⟨rfl, rfl⟩
  | succ n ih =>
    rw [mainLoop] at h
    cases hm : mainLoop hw fuel n s with
    | none => simp [hm] at h
    | some sm =>
      simp only [hm] at h
      have h1 := ih sm hm
      have h2 := mainIteration_frame _ _ _ _ _ h
      exact ⟨h2.1.trans h1.1, h2.2.trans h1.2⟩

/-- The loop reaches iteration `n` when in every earlier iteration a VBlank
reading arrives within the fuel. -/
theorem mainLoop_reaches (hw : Nat → Nat × (Nat → Nat)) (fuel n : Nat) (s : State)
    (h : ∀ m, m < n → ∃ j, j < fuel ∧ ((hw m).2 j).testBit 0 = true) :
    ∃ sn, mainLoop hw fuel n s = some sn := by
  induction n with
  | zero => exact ⟨s, rfl⟩
  | succ n ih =>
    obtain ⟨sm, hsm⟩ := ih (fun m hm => h m (by omega))
    obtain ⟨j, hj, hbit⟩ := h n (Nat.lt_succ_self n)
    obtain ⟨k, hk⟩ := spinVBlank_isSome (hw n).2 fuel 0 ⟨j, Nat.zero_le j, by omega, hbit⟩
    rw [mainLoop, hsm]
    simp [mainIteration, System.WaitForVBlankOn, hk]

/-- C19: from every prior state the setup of `main`, `Initialize()`,
`SetMode(MODE_0)`, `EnableBackground(BG0_ENABLE)`, leaves `BG0_ENABLE` (0x0100) in
DISPCNT and `IRQ_VBLANK` in IE. `GetKeysPressed()` stores to no register and
`WaitForVBlank()` stores to neither DISPCNT nor IE, so the two values hold at the
start of every iteration of the loop, whatever the key readings and IF readings
the hardware supplies; and every iteration is reached when each earlier one gets a
VBlank reading within its fuel. -/
theorem main_display_invariant (s0 : State) (hw : Nat → Nat × (Nat → Nat)) (fuel n : Nat) :
    (mainSetup s0).regs REG_DISPCNT = BG0_ENABLE
      ∧ BG0_ENABLE = 0x0100
      ∧ (mainSetup s0).regs REG_IE = IRQ_VBLANK
      ∧ (∀ t, (Input.GetKeysPressed t).2.regs = t.regs)
      ∧ (∀ f t t1, System.WaitForVBlank f t = some t1 →
          t1.regs REG_DISPCNT = t.regs REG_DISPCNT ∧ t1.regs REG_IE = t.regs REG_IE)
      ∧ (∀ reads f t res, System.WaitForVBlankOn reads f t = some res →
          res.2.regs REG_DISPCNT = t.regs REG_DISPCNT ∧ res.2.regs REG_IE = t.regs REG_IE)
      ∧ (∀ sn, mainLoop hw fuel n (mainSetup s0) = some sn →
          sn.regs REG_DISPCNT = BG0_ENABLE ∧ sn.regs REG_IE = IRQ_VBLANK)
      ∧ ((∀ m, m < n → ∃ j, j < fuel ∧ ((hw m).2 j).testBit 0 = true) →
          ∃ sn, mainLoop hw fuel n (mainSetup s0) = some sn) := by
  have hD : (mainSetup s0).regs REG_DISPCNT = BG0_ENABLE := by
    simp [mainSetup, Graphics.Display.EnableBackground, Graphics.Display.SetMode, write16,
      read16, toU16, MODE_0, BG0_ENABLE]
  have hE : (mainSetup s0).regs REG_IE = IRQ_VBLANK := by
    simp [mainSetup, Graphics.Display.EnableBackground, Graphics.Display.SetMode,
      System.Initialize, System.RegisterRamReset, System.irqInit, System.irqEnable, write16,
      read16, toU16, REG_IE, REG_IF, REG_IME, REG_DISPCNT, IRQ_VBLANK]
  refine ⟨hD, rfl, hE, fun _ => rfl, ?_, ?_, ?_, mainLoop_reaches hw fuel n (mainSetup s0)⟩
  · intro f t t1 h
    rw [(waitForVBlank_some f t t1 h).2]
    constructor <;> simp [write16, REG_DISPCNT, REG_IE, REG_IF]
  · intro reads f t res h
    rw [waitForVBlankOn_some reads f t res h]
    constructor <;> simp [write16, REG_DISPCNT, REG_IE, REG_IF]
  · intro sn h
    have hf := mainLoop_frame hw fuel n (mainSetup s0) sn h
    exact ⟨hf.1.trans hD, hf.2.trans hE⟩

/-- Witness of C19: three iterations with A held, the VBlank reading arriving at
reading `m` of iteration `m`, are reached with fuel 4 and start with the two
values in place. -/
theorem main_display_invariant_witness :
    (mainLoop (fun m => (0x03FE, fun i => if i < m then 0 else 1)) 4 3
        (mainSetup { regs := fun _ => 0xFFFF, prevKeys := 0 })).map
        (fun sn => (sn.regs REG_DISPCNT, sn.regs REG_IE)) = some (BG0_ENABLE, IRQ_VBLANK) := by
  obtain ⟨sn, hsn⟩ :=
    (main_display_invariant { regs := fun _ => 0xFFFF, prevKeys := 0 }
      (fun m => (0x03FE, fun i => if i < m then 0 else 1)) 4 3).2.2.2.2.2.2.2
      (by decide)
  have hinv :=
    (main_display_invariant { regs := fun _ => 0xFFFF, prevKeys := 0 }
      (fun m => (0x03FE, fun i => if i < m then 0 else 1)) 4 3).2.2.2.2.2.2.1 sn hsn
  rw [hsn, Option.map_some', hinv.1, hinv.2]

end GBA
